import Mathlib

/-!
Verification of the compas mesh-processing core:
* `src/compas/datastructures/mesh/algorithms/optimisation.py` (`trimesh_optimise_topology`)
* `src/compas/topology/subdivision.py` (the subdivision schemes and their dispatcher)

The mesh storage itself (the compas `Mesh` class) and the geometry helpers
(`centroid_points`, `smooth_area`) and the atomic topology operators
(`trimesh_split_edge`, `trimesh_collapse_edge`, `trimesh_swap_edge`,
`Mesh.split_edge`, `Mesh.insert_vertex`) are external to the repository; they
are modelled here from the specification's Mesh-ADT and Geometry-Helpers
contracts, as three flat maps keyed by monotonically increasing integer
identifiers (vertex table, face table, half-edges derived from the face
cycles).  Numeric values are exact rationals.
-/

set_option maxRecDepth 100000

namespace Compas

/-- 3D coordinates, as exact rationals. -/
abbrev Point := ℚ × ℚ × ℚ

/-- `centroid_points` (Geometry Helpers, external).
Modelled from the spec: arithmetic mean of a non-empty list of coordinates. -/
def centroid_points (ps : List Point) : Point :=
  let n : ℚ := ps.length
  let s := ps.foldl (fun acc p => (acc.1 + p.1, acc.2.1 + p.2.1, acc.2.2 + p.2.2)) (0, 0, 0)
  (s.1 / n, s.2.1 / n, s.2.2 / n)

/-- Midpoint of two points (the ADT's default edge-split position). -/
def midpoint (p q : Point) : Point :=
  ((p.1 + q.1) / 2, (p.2.1 + q.2.1) / 2, (p.2.2 + q.2.2) / 2)

/-- Exact square root of a rational whose numerator and denominator are perfect
squares, and `0` otherwise.  Every mesh evaluated concretely below is arranged
so that all evaluated squared distances are perfect rational squares, where
this agrees with the real geometric length. -/
def ratSqrt (q : ℚ) : ℚ :=
  let sn := Nat.sqrt q.num.toNat
  let sd := Nat.sqrt q.den
  if sn * sn = q.num.toNat ∧ sd * sd = q.den then (sn : ℚ) / (sd : ℚ) else 0

/-- Squared Euclidean distance. -/
def distSq (p q : Point) : ℚ :=
  (p.1 - q.1) ^ 2 + (p.2.1 - q.2.1) ^ 2 + (p.2.2 - q.2.2) ^ 2

/-- A mesh: vertex table, face table (ordered vertex cycles), and the two
fresh-key counters.  Half-edge adjacency is derived from the face cycles
(spec section 9: three flat maps, no back references). -/
structure Mesh where
  vertexTable : List (Nat × Point)
  faceTable : List (Nat × List Nat)
  nextV : Nat
  nextF : Nat
deriving DecidableEq, Repr

/-- The directed half-edges of one face cycle: consecutive pairs, wrapping. -/
def faceHalfedges (vs : List Nat) : List (Nat × Nat) :=
  vs.zip (vs.rotate 1)

/-- The vertex before `x` in the cycle `vs` (the source's
`face[face.index(x) - 1]`, with Python's `-1` wrap-around). -/
def prevInCycle (vs : List Nat) (x : Nat) : Nat :=
  vs.getD ((vs.indexOf x + vs.length - 1) % vs.length) 0

/-- The vertex after `x` in the cycle `vs`. -/
def nextInCycle (vs : List Nat) (x : Nat) : Nat :=
  vs.getD ((vs.indexOf x + 1) % vs.length) 0

def Mesh.vertexKeys (m : Mesh) : List Nat := m.vertexTable.map (·.1)

def Mesh.vertexCount (m : Mesh) : Nat := m.vertexTable.length

def Mesh.faceKeys (m : Mesh) : List Nat := m.faceTable.map (·.1)

def Mesh.faceCount (m : Mesh) : Nat := m.faceTable.length

/-- Ordered vertex cycle of a face (`mesh.face_vertices`). -/
def Mesh.faceVertices (m : Mesh) (fkey : Nat) : List Nat :=
  (m.faceTable.lookup fkey).getD []

/-- All directed half-edges of the mesh, in face-table order. -/
def Mesh.halfedges (m : Mesh) : List (Nat × Nat) :=
  (m.faceTable.map (fun f => faceHalfedges f.2)).flatten

/-- The face on the directed half-edge `(u, v)` (`mesh.halfedge[u][v]`);
`none` when the half-edge has no face (boundary side). -/
def Mesh.halfedgeFace (m : Mesh) (u v : Nat) : Option Nat :=
  (m.faceTable.find? (fun f => (u, v) ∈ faceHalfedges f.2)).map (·.1)

/-- Undirected edges, each once, in first-seen half-edge order
(`mesh.edges()`). -/
def Mesh.edges (m : Mesh) : List (Nat × Nat) :=
  m.halfedges.foldl
    (fun acc uv => if uv ∈ acc ∨ (uv.2, uv.1) ∈ acc then acc else acc ++ [uv]) []

/-- Distinct adjacent vertices (`mesh.halfedge[u]` keys /
`mesh.vertex_neighbours`). -/
def Mesh.vertexNeighbors (m : Mesh) (u : Nat) : List Nat :=
  m.halfedges.foldl
    (fun acc e =>
      if e.1 = u ∧ e.2 ∉ acc then acc ++ [e.2]
      else if e.2 = u ∧ e.1 ∉ acc then acc ++ [e.1]
      else acc) []

/-- `mesh.vertex_degree`: number of distinct adjacent vertices. -/
def Mesh.vertexDegree (m : Mesh) (u : Nat) : Nat :=
  (m.vertexNeighbors u).length

/-- A vertex is on the boundary when one of its incident half-edges has no
face on one side. -/
def Mesh.isVertexOnBoundary (m : Mesh) (u : Nat) : Bool :=
  (m.vertexNeighbors u).any
    (fun v => (m.halfedgeFace u v).isNone || (m.halfedgeFace v u).isNone)

/-- `mesh.vertices_on_boundary()`. -/
def Mesh.verticesOnBoundary (m : Mesh) : List Nat :=
  m.vertexKeys.filter (fun u => m.isVertexOnBoundary u)

/-- `mesh.vertex_coordinates`. -/
def Mesh.vertexCoordinates (m : Mesh) (u : Nat) : Point :=
  (m.vertexTable.lookup u).getD (0, 0, 0)

/-- `mesh.edge_length` (ADT contract: the edge's geometric length). -/
def Mesh.edgeLength (m : Mesh) (u v : Nat) : ℚ :=
  ratSqrt (distSq (m.vertexCoordinates u) (m.vertexCoordinates v))

/-- Faces incident to a vertex (`mesh.vertex_faces`). -/
def Mesh.vertexFaces (m : Mesh) (u : Nat) : List Nat :=
  (m.faceTable.filter (fun f => u ∈ f.2)).map (·.1)

/-- `mesh.face_centroid`. -/
def Mesh.faceCentroid (m : Mesh) (fkey : Nat) : Point :=
  centroid_points ((m.faceVertices fkey).map (fun v => m.vertexCoordinates v))

/-- Add a free vertex at given coordinates (`mesh.add_vertex`). -/
def Mesh.addVertex (m : Mesh) (p : Point) : Mesh × Nat :=
  ({ m with vertexTable := m.vertexTable ++ [(m.nextV, p)], nextV := m.nextV + 1 },
   m.nextV)

/-- Add a face from an ordered vertex list (`mesh.add_face`). -/
def Mesh.addFace (m : Mesh) (vs : List Nat) : Mesh × Nat :=
  ({ m with faceTable := m.faceTable ++ [(m.nextF, vs)], nextF := m.nextF + 1 },
   m.nextF)

/-- Remove a face (`del mesh.face[fkey]`). -/
def Mesh.removeFace (m : Mesh) (fkey : Nat) : Mesh :=
  { m with faceTable := m.faceTable.filter (fun f => f.1 ≠ fkey) }

/-- Overwrite one vertex's coordinates. -/
def Mesh.setVertexCoordinates (m : Mesh) (u : Nat) (p : Point) : Mesh :=
  { m with vertexTable := m.vertexTable.map (fun e => if e.1 = u then (e.1, p) else e) }

/-- `mesh.copy()`: meshes are immutable values here, so a deep copy is the
mesh itself. -/
def Mesh.copy (m : Mesh) : Mesh := m

/-- Insert `w` between the consecutive cycle entries `u, v` (no-op when
`(u, v)` is not a half-edge of the cycle). -/
def insertBetween (vs : List Nat) (u v w : Nat) : List Nat :=
  let n := vs.length
  match (List.range n).find? (fun i => vs.getD i 0 = u ∧ vs.getD ((i + 1) % n) 0 = v) with
  | some i => vs.take (i + 1) ++ [w] ++ vs.drop (i + 1)
  | none => vs

/-- `mesh.split_edge(u, v, allow_boundary)` (Mesh ADT, external).
Modelled from the spec: inserts a vertex subdividing the edge into two,
rewiring the incident faces (the new vertex joins each incident face's
cycle); the default split position is the midpoint; a refused boundary split
is a silent no-op (spec's degenerate-operation policy). -/
def Mesh.split_edge (m : Mesh) (u v : Nat) (allow : Bool) : Mesh × Nat :=
  if ¬allow ∧ ((m.halfedgeFace u v).isNone ∨ (m.halfedgeFace v u).isNone) then (m, u)
  else
    let p := midpoint (m.vertexCoordinates u) (m.vertexCoordinates v)
    let w := m.nextV
    ({ m with
        vertexTable := m.vertexTable ++ [(w, p)],
        faceTable := m.faceTable.map
          (fun f => (f.1, insertBetween (insertBetween f.2 u v w) v u w)),
        nextV := w + 1 },
     w)

/-- `mesh.insert_vertex(fkey)` (Mesh ADT, external).
Modelled from the spec: adds a vertex inside the face (at its centroid) and
fans the face to its corners. -/
def Mesh.insert_vertex (m : Mesh) (fkey : Nat) : Mesh × Nat :=
  let vs := m.faceVertices fkey
  let (m1, c) := m.addVertex (m.faceCentroid fkey)
  let m2 := (faceHalfedges vs).foldl (fun acc uv => (acc.addFace [uv.1, uv.2, c]).1) m1
  (m2.removeFace fkey, c)

/-- `trimesh_split_edge(mesh, u, v, allow_boundary)` (external operator).
Modelled from the spec: inserts the midpoint vertex and splits each of the
(up to two) incident triangles into two triangles; a refused boundary split
is a silent no-op. -/
def trimesh_split_edge (m : Mesh) (u v : Nat) (allow : Bool) : Mesh × Nat :=
  if ¬allow ∧ ((m.halfedgeFace u v).isNone ∨ (m.halfedgeFace v u).isNone) then (m, u)
  else
    let (m1, w) := m.addVertex (midpoint (m.vertexCoordinates u) (m.vertexCoordinates v))
    let m2 :=
      match m.halfedgeFace u v with
      | some f1 =>
          let t := prevInCycle (m.faceVertices f1) u
          (((m1.removeFace f1).addFace [u, w, t]).1.addFace [w, v, t]).1
      | none => m1
    let m3 :=
      match m.halfedgeFace v u with
      | some f2 =>
          let s := prevInCycle (m.faceVertices f2) v
          (((m2.removeFace f2).addFace [v, w, s]).1.addFace [w, u, s]).1
      | none => m2
    (m3, w)

/-- `trimesh_collapse_edge(mesh, u, v, allow_boundary, fixed)` (external
operator).  Modelled from the spec: refuses (silent no-op) when either
endpoint is in the fixed set, or when boundary participation is disallowed
and the edge touches the boundary; otherwise `u` survives at the midpoint,
`v` is removed, the two triangles on the edge disappear and the remaining
occurrences of `v` become `u`. -/
def trimesh_collapse_edge (m : Mesh) (u v : Nat) (allow : Bool) (fixed : List Nat) :
    Mesh :=
  if u ∈ fixed ∨ v ∈ fixed then m
  else if ¬allow ∧ (m.isVertexOnBoundary u || m.isVertexOnBoundary v) then m
  else
    let p := midpoint (m.vertexCoordinates u) (m.vertexCoordinates v)
    { m with
        vertexTable :=
          (m.vertexTable.filter (fun e => e.1 ≠ v)).map
            (fun e => if e.1 = u then (e.1, p) else e),
        faceTable :=
          (m.faceTable.filter (fun f => ¬(u ∈ f.2 ∧ v ∈ f.2))).map
            (fun f => (f.1, f.2.map (fun x => if x = v then u else x))) }

/-- `trimesh_swap_edge(mesh, u, v, allow_boundary)` (external operator).
Modelled from the spec: flips the diagonal shared by the edge's two incident
triangles; a no-op on a boundary edge, or when boundary participation is
disallowed and an endpoint lies on the boundary. -/
def trimesh_swap_edge (m : Mesh) (u v : Nat) (allow : Bool) : Mesh :=
  match m.halfedgeFace u v, m.halfedgeFace v u with
  | some f1, some f2 =>
      if ¬allow ∧ (m.isVertexOnBoundary u || m.isVertexOnBoundary v) then m
      else
        let c := prevInCycle (m.faceVertices f1) u
        let d := prevInCycle (m.faceVertices f2) v
        { m with
            faceTable := m.faceTable.map
              (fun f =>
                if f.1 = f1 then (f.1, [c, u, d])
                else if f.1 = f2 then (f.1, [d, v, c])
                else f) }
  | _, _ => m

/-! ## The remeshing optimizer (`trimesh_optimise_topology`) -/

/-- Observable events of one optimizer run.  `split`/`collapse`/`swap` record
the calls the optimizer makes to the topology operators (the operator itself
may still refuse internally, per the degenerate-operation policy); `check`
records a convergence evaluation `(k, num_vertices_1, num_vertices_2)`;
`smoothed` and `callback` record the end-of-round smoothing and callback
invocation; `breakAt` records early termination. -/
inductive Event where
  | split (k u v : Nat)
  | collapse (k u v : Nat)
  | swap (k u v : Nat)
  | check (k n1 n2 : Nat)
  | smoothed (k : Nat)
  | callback (k : Nat)
  | breakAt (k : Nat)
deriving DecidableEq, Repr

/-- The vertices an operator call touched (its edge's endpoints). -/
def Event.endpoints : Event → List Nat
  | .split _ u v => [u, v]
  | .collapse _ u v => [u, v]
  | .swap _ u v => [u, v]
  | _ => []

/-- State threaded through one phase: the mesh, the `visited` vertex set of
this phase, and the operator calls made so far in this phase. -/
structure PhaseState where
  mesh : Mesh
  visited : List Nat
  evs : List Event
deriving Repr

/-- One step of the split phase (optimisation.py lines 180-191): skip an edge
touching a visited vertex, skip an edge not longer than `lmax + dlmax`,
otherwise split and mark both endpoints visited. -/
def splitStep (k : Nat) (thr : ℚ) (allow : Bool) (st : PhaseState) (uv : Nat × Nat) :
    PhaseState :=
  if uv.1 ∈ st.visited ∨ uv.2 ∈ st.visited then st
  else if st.mesh.edgeLength uv.1 uv.2 ≤ thr then st
  else
    { mesh := (trimesh_split_edge st.mesh uv.1 uv.2 allow).1,
      visited := uv.1 :: uv.2 :: st.visited,
      evs := st.evs ++ [.split k uv.1 uv.2] }

/-- The split phase: one pass over the mesh's edges. -/
def splitPhase (k : Nat) (thr : ℚ) (allow : Bool) (m : Mesh) : PhaseState :=
  m.edges.foldl (splitStep k thr allow) ⟨m, [], []⟩

/-- One step of the collapse phase (lines 197-210): skip visited or
not-short-enough edges, otherwise collapse and mark both endpoints and all of
the surviving vertex's neighbours visited. -/
def collapseStep (k : Nat) (thr : ℚ) (allow : Bool) (fixed : List Nat)
    (st : PhaseState) (uv : Nat × Nat) : PhaseState :=
  if uv.1 ∈ st.visited ∨ uv.2 ∈ st.visited then st
  else if st.mesh.edgeLength uv.1 uv.2 ≥ thr then st
  else
    let m2 := trimesh_collapse_edge st.mesh uv.1 uv.2 allow fixed
    { mesh := m2,
      visited := uv.1 :: uv.2 :: (m2.vertexNeighbors uv.1 ++ st.visited),
      evs := st.evs ++ [.collapse k uv.1 uv.2] }

/-- The collapse phase: one pass over the mesh's edges. -/
def collapsePhase (k : Nat) (thr : ℚ) (allow : Bool) (fixed : List Nat) (m : Mesh) :
    PhaseState :=
  m.edges.foldl (collapseStep k thr allow fixed) ⟨m, [], []⟩

/-- One step of the swap phase (lines 216-257): for an unvisited edge with
two incident faces, compute the four valencies (with the `+2` boundary
correction), the current and flipped valency errors, and swap exactly when
the current error strictly exceeds the flipped error, marking both endpoints
visited. -/
def swapStep (k : Nat) (allow : Bool) (boundary : List Nat) (st : PhaseState)
    (uv : Nat × Nat) : PhaseState :=
  if uv.1 ∈ st.visited ∨ uv.2 ∈ st.visited then st
  else
    match st.mesh.halfedgeFace uv.1 uv.2, st.mesh.halfedgeFace uv.2 uv.1 with
    | some f1, some f2 =>
        let face1 := st.mesh.faceVertices f1
        let face2 := st.mesh.faceVertices f2
        let v1 := prevInCycle face1 uv.1
        let v2 := prevInCycle face2 uv.2
        let valency1 := st.mesh.vertexDegree uv.1 + (if uv.1 ∈ boundary then 2 else 0)
        let valency2 := st.mesh.vertexDegree uv.2 + (if uv.2 ∈ boundary then 2 else 0)
        let valency3 := st.mesh.vertexDegree v1 + (if v1 ∈ boundary then 2 else 0)
        let valency4 := st.mesh.vertexDegree v2 + (if v2 ∈ boundary then 2 else 0)
        let current_error :=
          |(valency1 : ℤ) - 6| + |(valency2 : ℤ) - 6| +
            |(valency3 : ℤ) - 6| + |(valency4 : ℤ) - 6|
        let flipped_error :=
          |(valency1 : ℤ) - 7| + |(valency2 : ℤ) - 7| +
            |(valency3 : ℤ) - 5| + |(valency4 : ℤ) - 5|
        if current_error ≤ flipped_error then st
        else
          { mesh := trimesh_swap_edge st.mesh uv.1 uv.2 allow,
            visited := uv.1 :: uv.2 :: st.visited,
            evs := st.evs ++ [.swap k uv.1 uv.2] }
    | _, _ => st

/-- The swap phase: one pass over the mesh's edges. -/
def swapPhase (k : Nat) (allow : Bool) (boundary : List Nat) (m : Mesh) : PhaseState :=
  m.edges.foldl (swapStep k allow boundary) ⟨m, [], []⟩

/-- Area of a polygon lying in the `z = 0` plane, by the shoelace formula
(used only by the spec-modelled `smooth_area`; every mesh it is evaluated on
below is planar). -/
def polygonArea (ps : List Point) : ℚ :=
  let n := ps.length
  |(List.range n).foldl
      (fun acc i =>
        let p := ps.getD i (0, 0, 0)
        let q := ps.getD ((i + 1) % n) (0, 0, 0)
        acc + (p.1 * q.2.1 - q.1 * p.2.1)) 0| / 2

/-- `smooth_area(vertices, faces, adjacency, fixed, kmax)` (Geometry Helpers,
external).  Modelled from the spec: `kmax` passes of area-weighted positional
smoothing over the vertex table, leaving entries whose key is in `fixed`
unchanged; each non-fixed vertex moves to the area-weighted centroid of the
centroids of its incident faces (kept in place when the total incident area
is zero). -/
def smooth_area (vertices : List (Nat × Point)) (faces : List (Nat × List Nat))
    (adjacency : List (Nat × List Nat)) (fixed : List Nat) (kmax : Nat) :
    List (Nat × Point) :=
  (List.range kmax).foldl
    (fun vtab _ =>
      let coord := fun x => ((vtab.lookup x).getD (0, 0, 0) : Point)
      let fcent := faces.map (fun f => (f.1, centroid_points (f.2.map coord)))
      let farea := faces.map (fun f => (f.1, polygonArea (f.2.map coord)))
      vtab.map
        (fun e =>
          if e.1 ∈ fixed then e
          else
            let fkeys := (adjacency.lookup e.1).getD []
            let A := fkeys.foldl (fun a fk => a + ((farea.lookup fk).getD 0)) 0
            if A = 0 then e
            else
              let s := fkeys.foldl
                (fun acc fk =>
                  let a := (farea.lookup fk).getD 0
                  let c := (fcent.lookup fk).getD (0, 0, 0)
                  (acc.1 + a * c.1, acc.2.1 + a * c.2.1, acc.2.2 + a * c.2.2))
                ((0 : ℚ), (0 : ℚ), (0 : ℚ))
              (e.1, (s.1 / A, s.2.1 / A, s.2.2 / A))))
    vertices

/-- The optimizer's end-of-round smoothing block (lines 269-280): recompute
the boundary set, gather coordinates, face lists and vertex-face adjacency,
run one `smooth_area` pass with the *boundary* vertices fixed, and write the
returned coordinates back.  Returns the smoothed mesh and the recomputed
boundary set. -/
def smoothStep (m : Mesh) : Mesh × List Nat :=
  let boundary := m.verticesOnBoundary
  let vertices := m.vertexTable
  let faces := m.faceTable
  let adjacency := m.vertexKeys.map (fun key => (key, m.vertexFaces key))
  let vertices2 := smooth_area vertices faces adjacency boundary 1
  ({ m with vertexTable := vertices2 }, boundary)

/-- Optimizer parameters (the function's keyword arguments; the callback is
modelled observationally as a presence flag, since the spec restricts it to
observation). -/
structure OptParams where
  target : ℚ
  kmax : Nat
  tol : ℚ
  divergence : ℚ
  allow_boundary_split : Bool
  allow_boundary_swap : Bool
  allow_boundary_collapse : Bool
  smooth : Bool
  fixed : List Nat
  hasCallback : Bool
deriving Repr

/-- The optimizer loop's per-round state. -/
structure OptState where
  mesh : Mesh
  boundary : List Nat
  count : Nat
  nv1 : Nat
  trace : List Event
  broke : Bool
deriving Repr

/-- The per-round slack computation (lines 160-166): on the first half of the
rounds the slack is `fac`-scaled and linearly decreasing, afterwards zero.
Returns `(dlmin, dlmax)`. -/
def roundSlacks (fac lmin lmax kmaxStart : ℚ) (k : Nat) : ℚ × ℚ :=
  if (k : ℚ) ≤ kmaxStart then
    let scale := fac * (1 - (k : ℚ) / kmaxStart)
    (lmin * scale, lmax * scale)
  else (0, 0)

/-- The phase executed in one round (lines 177-260), selected by the
incremented cycle counter: 1 split, 2 collapse, 3 swap, else no phase. -/
def optRoundPhase (p : OptParams) (lmin lmax dlmin dlmax : ℚ) (boundary : List Nat)
    (count : Nat) (m : Mesh) (k : Nat) : PhaseState :=
  if count = 1 then splitPhase k (lmax + dlmax) p.allow_boundary_split m
  else if count = 2 then collapsePhase k (lmin - dlmin) p.allow_boundary_collapse p.fixed m
  else if count = 3 then swapPhase k p.allow_boundary_swap boundary m
  else ⟨m, [], []⟩

/-- The convergence-check condition of lines 262-266: on rounds where
`(k - 10) % 20 == 0`, break when `abs(1 - num_vertices_1 / num_vertices_2)`
is below `divergence` and more than half of `kmax` rounds have run. -/
def roundBreaks (divergence kmaxStart : ℚ) (nv1 nv2 k : Nat) : Prop :=
  ((k : ℤ) - 10) % 20 = 0 ∧
    |1 - (nv1 : ℚ) / (nv2 : ℚ)| < divergence ∧ (k : ℚ) > kmaxStart

instance (divergence kmaxStart : ℚ) (nv1 nv2 k : Nat) :
    Decidable (roundBreaks divergence kmaxStart nv1 nv2 k) := by
  unfold roundBreaks; infer_instance

/-- One round of the optimizer (loop body, lines 158-283): slack update,
vertex-count snapshot every 20 rounds, one phase of the split/collapse/swap
cycle, the convergence check (which breaks before smoothing and callback),
then optional smoothing and the optional end-of-round callback. -/
def optRound (p : OptParams) (fac lmin lmax kmaxStart : ℚ) (st : OptState) (k : Nat) :
    OptState :=
  if st.broke then st
  else
    let sl := roundSlacks fac lmin lmax kmaxStart k
    let count := st.count + 1
    let nv1 := if k % 20 = 0 then st.mesh.vertexCount else st.nv1
    let ph := optRoundPhase p lmin lmax sl.1 sl.2 st.boundary count st.mesh k
    let count2 := if count = 1 ∨ count = 2 ∨ count = 3 then count else 0
    let isCheck : Bool := ((k : ℤ) - 10) % 20 = 0
    let nv2 := ph.mesh.vertexCount
    let evsC : List Event := if isCheck then [.check k nv1 nv2] else []
    if roundBreaks p.divergence kmaxStart nv1 nv2 k then
      { mesh := ph.mesh, boundary := st.boundary, count := count2, nv1 := nv1,
        trace := st.trace ++ ph.evs ++ evsC ++ [.breakAt k], broke := true }
    else
      let sm := if p.smooth then some (smoothStep ph.mesh) else none
      let mesh2 := (sm.map (·.1)).getD ph.mesh
      let boundary2 := (sm.map (·.2)).getD st.boundary
      let evsS : List Event := if p.smooth then [.smoothed k] else []
      let evsCb : List Event := if p.hasCallback then [.callback k] else []
      { mesh := mesh2, boundary := boundary2, count := count2, nv1 := nv1,
        trace := st.trace ++ ph.evs ++ evsC ++ evsS ++ evsCb, broke := false }

/-- Failures the optimizer's setup can raise: `max()` over an empty
edge-length list, and the division by a zero target in the ramp factor. -/
inductive OptError where
  | emptyMesh
  | divisionByZero
deriving DecidableEq, Repr

/-- Result of a run: the final mesh and the event trace. -/
structure OptRun where
  mesh : Mesh
  trace : List Event
deriving Repr

/-- The maximum current edge length of a mesh. -/
def maxEdgeLength (m : Mesh) : ℚ :=
  ((m.edges.map (fun uv => m.edgeLength uv.1 uv.2)).max?).getD 0

/-- `trimesh_optimise_topology(mesh, target, kmax, tol, divergence, ...)`
(optimisation.py lines 142-283).  Derived bounds `lmin`/`lmax`, ramp factor
`fac` from the maximum initial edge length, initial boundary set, then up to
`kmax` rounds of `optRound`. -/
def trimesh_optimise_topology (m : Mesh) (p : OptParams) : Except OptError OptRun :=
  let lmin := (1 - p.tol) * (4 / 5) * p.target
  let lmax := (1 + p.tol) * (4 / 3) * p.target
  match (m.edges.map (fun uv => m.edgeLength uv.1 uv.2)).max? with
  | none => .error .emptyMesh
  | some L =>
      if p.target = 0 then .error .divisionByZero
      else
        let target_start := L / 2
        let fac := target_start / p.target
        let boundary := m.verticesOnBoundary
        let kmaxStart : ℚ := (p.kmax : ℚ) / 2
        let fin := (List.range p.kmax).foldl (optRound p fac lmin lmax kmaxStart)
          ⟨m, boundary, 0, 0, [], false⟩
        .ok ⟨fin.mesh, fin.trace⟩

/-! ## The subdivision engine (`subdivision.py`) -/

/-- Rational stand-in for the host library's `cos(2*pi*t)` used by the
Doo-Sabin and Loop stencil weights (a truncated Taylor series around a
rational approximation of `pi`).  Modelled from the spec; no claim below
depends on its numeric values. -/
def cos2pi (t : ℚ) : ℚ :=
  let x := 2 * (314159265358979323 / 100000000000000000 : ℚ) * t
  (List.range 13).foldl
    (fun acc i =>
      acc + (-1 : ℚ) ^ i * x ^ (2 * i) / ((Nat.factorial (2 * i) : ℚ))) 0

/-- `mesh_subdivide_tri(mesh, k)` (subdivision.py lines 75-100): `k` levels
of inserting one vertex per face, fanning the face to its corners. -/
def mesh_subdivide_tri (m : Mesh) (k : Nat) : Mesh :=
  (List.range k).foldl
    (fun mesh _ =>
      let subd := mesh.copy
      mesh.faceKeys.foldl (fun s fkey => (s.insert_vertex fkey).1) subd)
    m

/-- The quad-subdivision per-face step (lines 115-126, shared verbatim by
Catmull-Clark): read the split face's cycle from `subd` for the
ancestor/descendant maps, add the centroid vertex, add one quad
`[ancestor, corner, descendant, centre]` per corner of the *original* face,
and delete the original face. -/
def quadCornerPick (subd : Mesh) (fkey c key : Nat) : List Nat :=
  let he := faceHalfedges (subd.faceVertices fkey)
  [(((he.find? (fun ij => ij.2 = key)).map (·.1)).getD 0), key,
    (((he.find? (fun ij => ij.1 = key)).map (·.2)).getD 0), c]

def quadFaceStep (mesh : Mesh) (subd : Mesh) (fkey : Nat) : Mesh :=
  let s1c := subd.addVertex (mesh.faceCentroid fkey)
  let s2 := (mesh.faceVertices fkey).foldl
    (fun s key => (s.addFace (quadCornerPick subd fkey s1c.2 key)).1) s1c.1
  s2.removeFace fkey

/-- `mesh_subdivide_quad(mesh, k)` (lines 103-130): per level, split every
edge, then replace every original face by one quad per corner around the
face centroid. -/
def mesh_subdivide_quad (m : Mesh) (k : Nat) : Mesh :=
  (List.range k).foldl
    (fun mesh _ =>
      let subd := mesh.copy
      let subd := subd.edges.foldl (fun s uv => (s.split_edge uv.1 uv.2 true).1) subd
      mesh.faceKeys.foldl (quadFaceStep mesh) subd)
    m

/-- The corner-cut per-face step (lines 168-184): one triangle per corner and
one central face from the corner ancestors. -/
def cornerFaceStep (mesh : Mesh) (subd : Mesh) (fkey : Nat) : Mesh :=
  let he := faceHalfedges (subd.faceVertices fkey)
  let descendant := fun key => (((he.find? (fun ij => ij.1 = key)).map (·.2)).getD 0)
  let ancestor := fun key => (((he.find? (fun ij => ij.2 = key)).map (·.1)).getD 0)
  let s2 := (mesh.faceVertices fkey).foldl
    (fun sc key => ((sc.1.addFace [ancestor key, key, descendant key]).1,
                    sc.2 ++ [ancestor key]))
    (subd, ([] : List Nat))
  ((s2.1.addFace s2.2).1).removeFace fkey

/-- `mesh_subdivide_corner(mesh, k)` (lines 133-188). -/
def mesh_subdivide_corner (m : Mesh) (k : Nat) : Mesh :=
  (List.range k).foldl
    (fun mesh _ =>
      let subd := mesh.copy
      let subd := subd.edges.foldl (fun s uv => (s.split_edge uv.1 uv.2 true).1) subd
      mesh.faceKeys.foldl (cornerFaceStep mesh) subd)
    m

/-- Catmull-Clark's edge-split pass (lines 300-323): split every edge,
recording boundary edge-points per boundary endpoint and the interior
edge-points. -/
def ccSplitStep (bkeys : List Nat) (acc : Mesh × List (Nat × List Nat) × List Nat)
    (uv : Nat × Nat) : Mesh × List (Nat × List Nat) × List Nat :=
  let sw := acc.1.split_edge uv.1 uv.2 true
  if uv.1 ∈ bkeys ∧ uv.2 ∈ bkeys then
    (sw.1,
     acc.2.1.map
       (fun e => if e.1 = uv.1 ∨ e.1 = uv.2 then (e.1, e.2 ++ [sw.2]) else e),
     acc.2.2)
  else (sw.1, acc.2.1, acc.2.2 ++ [sw.2])

def ccSplitFold (bkeys : List Nat) (subd : Mesh) (edges : List (Nat × Nat)) :
    Mesh × List (Nat × List Nat) × List Nat :=
  edges.foldl (ccSplitStep bkeys)
    (subd, bkeys.map (fun b => (b, ([] : List Nat))), ([] : List Nat))

/-- Catmull-Clark's smoothing of the new interior edge-points (lines
347-352): each moves to the centroid of its current neighbours' pre-update
positions. -/
def ccEdgePointFold (keyXYZ : List (Nat × Point)) (subd : Mesh)
    (edgepoints : List Nat) : Mesh :=
  edgepoints.foldl
    (fun s w =>
      s.setVertexCoordinates w
        (centroid_points
          ((s.vertexNeighbors w).map (fun nbr => (keyXYZ.lookup nbr).getD (0, 0, 0)))))
    subd

/-- Catmull-Clark's repositioning of the original vertices (lines 357-384):
fixed vertices are left unmoved; a boundary vertex moves to the average of
its boundary edge-points' centroid and itself; an interior vertex moves to
`F/n + E*2/n + V*(n-3)/n`. -/
def ccVertexPointFold (mesh : Mesh) (fixed bkeys : List Nat)
    (bkeyEdgepoints : List (Nat × List Nat)) (keyXYZ : List (Nat × Point))
    (subd : Mesh) : Mesh :=
  let xyz := fun key => ((keyXYZ.lookup key).getD (0, 0, 0) : Point)
  mesh.vertexKeys.foldl
    (fun s key =>
      if key ∈ fixed then s
      else if key ∈ bkeys then
        let nbrs := ((bkeyEdgepoints.lookup key).getD []).dedup
        let E := centroid_points (nbrs.map xyz)
        let V := xyz key
        s.setVertexCoordinates key
          (E.1 / 2 + V.1 / 2, E.2.1 / 2 + V.2.1 / 2, E.2.2 / 2 + V.2.2 / 2)
      else
        let fnbrs := (mesh.vertexFaces key).map (fun fk => mesh.faceCentroid fk)
        let nbrs := (s.vertexNeighbors key).map xyz
        let n : ℚ := nbrs.length
        let F := centroid_points fnbrs
        let E := centroid_points nbrs
        let V := xyz key
        s.setVertexCoordinates key
          (F.1 / n + E.1 * 2 / n + V.1 * (n - 3) / n,
           F.2.1 / n + E.2.1 * 2 / n + V.2.1 * (n - 3) / n,
           F.2.2 / n + E.2.2 * 2 / n + V.2.2 * (n - 3) / n))
    subd

/-- One Catmull-Clark level (lines 294-386): the quad-subdivision topology,
then the classical position stencils. -/
def catmullclarkLevel (fixed : List Nat) (mesh : Mesh) : Mesh :=
  let subd := mesh.copy
  let bkeys := subd.verticesOnBoundary
  let sbe := ccSplitFold bkeys subd subd.edges
  let subd := mesh.faceKeys.foldl (quadFaceStep mesh) sbe.1
  let keyXYZ := subd.vertexTable
  let subd := ccEdgePointFold keyXYZ subd sbe.2.2
  ccVertexPointFold mesh fixed bkeys sbe.2.1 keyXYZ subd

/-- `mesh_subdivide_catmullclark(mesh, k, fixed)` (lines 191-388). -/
def mesh_subdivide_catmullclark (m : Mesh) (k : Nat) (fixed : List Nat) : Mesh :=
  (List.range k).foldl (fun mesh _ => catmullclarkLevel fixed mesh) m

/-- The Doo-Sabin corner-point weight (lines 433-436):
`(n+5)/(4n)` on the corner itself, `(3 + 2 cos(2 pi (i-j)/n))/(4n)` on the
other corners. -/
def doosabinAlpha (n : Nat) (i j : Nat) : ℚ :=
  if i = j then ((n : ℚ) + 5) / (4 * (n : ℚ))
  else (3 + 2 * cos2pi (((i : ℚ) - (j : ℚ)) / (n : ℚ))) / (4 * (n : ℚ))

/-- One Doo-Sabin level (lines 416-485): one new vertex per (face, corner)
incidence with the cosine stencil, one face per original face, one reversed
face per original interior vertex, one quad per original interior edge. -/
def doosabinLevel (mesh : Mesh) : Mesh :=
  let oldXYZ := fun key => mesh.vertexCoordinates key
  let start : Mesh × List ((Nat × Nat) × Nat) := (⟨[], [], 0, 0⟩, [])
  let built := mesh.faceTable.foldl
    (fun acc f =>
      let vertices := f.2
      let n := vertices.length
      (List.range n).foldl
        (fun acc2 i =>
          let old := vertices.getD i 0
          let c := (List.range n).foldl
            (fun cc j =>
              let xyz := oldXYZ (vertices.getD j 0)
              let alpha := doosabinAlpha n i j
              (cc.1 + alpha * xyz.1, cc.2.1 + alpha * xyz.2.1, cc.2.2 + alpha * xyz.2.2))
            ((0 : ℚ), (0 : ℚ), (0 : ℚ))
          let sv := acc2.1.addVertex c
          (sv.1, acc2.2 ++ [((f.1, old), sv.2)]))
        acc)
    start
  let oldNew := fun (fkey old : Nat) =>
    ((built.2.find? (fun e => e.1.1 = fkey ∧ e.1.2 = old)).map (·.2)).getD 0
  let subd := mesh.faceTable.foldl
    (fun s f => (s.addFace (f.2.map (fun key => oldNew f.1 key))).1) built.1
  let subd := mesh.vertexKeys.foldl
    (fun s key =>
      if mesh.isVertexOnBoundary key then s
      else (s.addFace (((mesh.vertexFaces key).map (fun fk => oldNew fk key)).reverse)).1)
    subd
  mesh.edges.foldl
    (fun s uv =>
      match mesh.halfedgeFace uv.1 uv.2, mesh.halfedgeFace uv.2 uv.1 with
      | some uvF, some vuF =>
          (s.addFace
            [oldNew uvF uv.1, oldNew vuF uv.1, oldNew vuF uv.2, oldNew uvF uv.2]).1
      | _, _ => s)
    subd

/-- `mesh_subdivide_doosabin(mesh, k, fixed)` (lines 391-487). -/
def mesh_subdivide_doosabin (m : Mesh) (k : Nat) (fixed : List Nat) : Mesh :=
  (List.range k).foldl (fun mesh _ => doosabinLevel mesh) m

/-- The Loop existing-vertex weight (lines 547-550). -/
def loopAlpha (n : Nat) : ℚ :=
  if n = 3 then 3 / 16
  else (5 / 8 - (3 / 8 + cos2pi (1 / (n : ℚ)) / 4) ^ 2) / (n : ℚ)

/-- One Loop level (lines 537-584): reposition every existing vertex from its
neighbours, split every edge placing the edge point by the `3/8 - 1/8`
stencil, then rebuild each original triangle as four triangles. -/
def loopLevel (subd : Mesh) : Mesh :=
  let keyXYZ := subd.vertexTable
  let xyz := fun key => ((keyXYZ.lookup key).getD (0, 0, 0) : Point)
  let fkeyVertices := subd.faceTable
  let uvW := fun (u v : Nat) =>
    match subd.halfedgeFace u v with
    | some f => nextInCycle (subd.faceVertices f) v
    | none => 0
  let subd := subd.vertexKeys.foldl
    (fun s key =>
      let nbrs := s.vertexNeighbors key
      let n := nbrs.length
      let a := loopAlpha n
      let sum := nbrs.foldl
        (fun acc nbr =>
          let q := xyz nbr
          (acc.1 + q.1, acc.2.1 + q.2.1, acc.2.2 + q.2.2))
        ((0 : ℚ), (0 : ℚ), (0 : ℚ))
      let v := xyz key
      s.setVertexCoordinates key
        ((1 - (n : ℚ) * a) * v.1 + a * sum.1,
         (1 - (n : ℚ) * a) * v.2.1 + a * sum.2.1,
         (1 - (n : ℚ) * a) * v.2.2 + a * sum.2.2))
    subd
  let se := subd.edges.foldl
    (fun acc uv =>
      let sw := acc.1.split_edge uv.1 uv.2 true
      let v1 := xyz uv.1
      let v2 := xyz uv.2
      let vl := xyz (uvW uv.1 uv.2)
      let vr := xyz (uvW uv.2 uv.1)
      let s2 := sw.1.setVertexCoordinates sw.2
        (3 * (v1.1 + v2.1) / 8 + (vl.1 + vr.1) / 8,
         3 * (v1.2.1 + v2.2.1) / 8 + (vl.2.1 + vr.2.1) / 8,
         3 * (v1.2.2 + v2.2.2) / 8 + (vl.2.2 + vr.2.2) / 8)
      (s2, acc.2 ++ [((uv.1, uv.2), sw.2), ((uv.2, uv.1), sw.2)]))
    (subd, ([] : List ((Nat × Nat) × Nat)))
  let edgepoint := fun (u v : Nat) =>
    ((se.2.find? (fun e => e.1.1 = u ∧ e.1.2 = v)).map (·.2)).getD 0
  fkeyVertices.foldl
    (fun s f =>
      match f.2 with
      | [u, v, w] =>
          let uv := edgepoint u v
          let vw := edgepoint v w
          let wu := edgepoint w u
          (((((s.addFace [wu, u, uv]).1.addFace [uv, v, vw]).1.addFace
              [vw, w, wu]).1.addFace [uv, vw, wu]).1).removeFace f.1
      | _ => s)
    se.1

/-- `trimesh_subdivide_loop(mesh, k, fixed)` (lines 490-586): a copy of the
input, then `k` Loop levels in place. -/
def trimesh_subdivide_loop (m : Mesh) (k : Nat) (fixed : List Nat) : Mesh :=
  let subd := m.copy
  (List.range k).foldl (fun s _ => loopLevel s) subd

/-- The dispatcher's failure: Python's `NotImplementedError`. -/
inductive SubdError where
  | notImplementedError
deriving DecidableEq, Repr

/-- `mesh_subdivide(mesh, scheme, **options)` (lines 38-72): string-keyed
dispatch over the five supported schemes, raising `NotImplementedError` on
any other scheme name.  The options are modelled as the level count `k`
(`fixed` defaults to none for the schemes accepting it). -/
def mesh_subdivide (m : Mesh) (scheme : String) (k : Nat) : Except SubdError Mesh :=
  if scheme = "tri" then .ok (mesh_subdivide_tri m k)
  else if scheme = "quad" then .ok (mesh_subdivide_quad m k)
  else if scheme = "corner" then .ok (mesh_subdivide_corner m k)
  else if scheme = "catmullclark" then .ok (mesh_subdivide_catmullclark m k [])
  else if scheme = "doosabin" then .ok (mesh_subdivide_doosabin m k [])
  else .error .notImplementedError

/-! ## Test fixtures and auxiliary definitions for the verification -/

/-- Key uniqueness and key freshness of the face table (holds for every mesh
built through `add_face`). -/
def Mesh.WF (m : Mesh) : Prop :=
  (m.faceTable.map (·.1)).Nodup ∧ ∀ f ∈ m.faceTable.map (·.1), f < m.nextF

instance (m : Mesh) : Decidable m.WF := by
  unfold Mesh.WF; infer_instance

/-- Number of face-table entries carrying the key `f`. -/
def faceKeyCount (m : Mesh) (f : Nat) : Nat :=
  (m.faceTable.map (·.1)).count f

/-- The swap heuristic's corrected valency: the vertex degree, increased by 2
for a vertex of the boundary set `B`. -/
def correctedValency (m : Mesh) (B : List Nat) (x : Nat) : ℤ :=
  ((m.vertexDegree x + (if x ∈ B then 2 else 0) : Nat) : ℤ)

/-- Two operator calls touching no common vertex. -/
def Event.disjointEndpoints (e1 e2 : Event) : Prop :=
  ∀ x ∈ e1.endpoints, x ∉ e2.endpoints

/-- The final mesh of a run (the input mesh when the run failed). -/
def runMesh (m : Mesh) (p : OptParams) : Mesh :=
  match trimesh_optimise_topology m p with
  | .ok r => r.mesh
  | .error _ => m

/-- The event trace of a run (empty when the run failed). -/
def runTrace (m : Mesh) (p : OptParams) : List Event :=
  match trimesh_optimise_topology m p with
  | .ok r => r.trace
  | .error _ => []

/-- Whether a run completed without failure. -/
def runOk (m : Mesh) (p : OptParams) : Bool :=
  match trimesh_optimise_topology m p with
  | .ok _ => true
  | .error _ => false

/-- A 3-triangle fan on collinear points (all squared edge lengths are
perfect rational squares, so `edgeLength` is the exact geometric length). -/
def fanMesh : Mesh :=
  ⟨[(0, (0, 0, 0)), (1, (1, 0, 0)), (2, (2, 0, 0)), (3, (3, 0, 0)), (4, (4, 0, 0))],
   [(0, [0, 1, 4]), (1, [1, 2, 4]), (2, [2, 3, 4])], 5, 3⟩

/-- A 4-3 rectangle fanned around the interior vertex `4` at `(1, 1)`. -/
def rectMesh : Mesh :=
  ⟨[(0, (0, 0, 0)), (1, (4, 0, 0)), (2, (4, 3, 0)), (3, (0, 3, 0)), (4, (1, 1, 0))],
   [(0, [0, 1, 4]), (1, [1, 2, 4]), (2, [2, 3, 4]), (3, [3, 0, 4])], 5, 4⟩

/-- A single planar unit quad. -/
def unitQuad : Mesh :=
  ⟨[(0, (0, 0, 0)), (1, (1, 0, 0)), (2, (1, 1, 0)), (3, (0, 1, 0))],
   [(0, [0, 1, 2, 3])], 4, 1⟩

/-- Two triangles sharing the interior edge `(0, 1)`. -/
def twoTri : Mesh :=
  ⟨[(0, (0, 0, 0)), (1, (2, 0, 0)), (2, (1, 1, 0)), (3, (1, -1, 0))],
   [(0, [0, 1, 2]), (1, [1, 0, 3])], 4, 2⟩

/-- Parameters of the convergence-check run: `target 1`, `kmax 12`,
`tol 0`, `divergence 1/2`, all boundary participation off, no smoothing, the
five initial vertices fixed, no callback. -/
def pDivergence : OptParams :=
  ⟨1, 12, 0, 1 / 2, false, false, false, false, [0, 1, 2, 3, 4], false⟩

/-- The convergence-check run again, with a callback supplied. -/
def pCallback : OptParams :=
  ⟨1, 12, 0, 1 / 2, false, false, false, false, [0, 1, 2, 3, 4], true⟩

/-- An invalid configuration: negative target length. -/
def pNegTarget : OptParams :=
  ⟨-1, 4, 0, 1 / 100, false, false, false, false, [], false⟩

/-- An invalid configuration: `tol = 2`, outside `[0, 1)`. -/
def pBadTol : OptParams :=
  ⟨1, 4, 2, 1 / 100, false, false, false, false, [], false⟩

/-- An invalid configuration: `kmax = 1 < 2`. -/
def pBadKmax : OptParams :=
  ⟨1, 1, 0, 1 / 100, false, false, false, false, [], false⟩

/-- A zero target length (the one configuration that does fail). -/
def pZeroTarget : OptParams :=
  ⟨0, 4, 0, 1 / 100, false, false, false, false, [], false⟩

/-- One smoothing round with the interior vertex `4` in the caller's fixed
set: `target 1`, `kmax 1`, `tol 1/10`, smoothing on, no callback. -/
def pFixedSmooth : OptParams :=
  ⟨1, 1, 1 / 10, 1 / 100, false, false, false, true, [4], false⟩

/-- The phase invariant: every operator call made so far has both endpoints
in the visited set, and the calls made so far touch pairwise disjoint
vertices. -/
def PhaseInv (st : PhaseState) : Prop :=
  (∀ e ∈ st.evs, ∀ x ∈ Event.endpoints e, x ∈ st.visited) ∧
    st.evs.Pairwise Event.disjointEndpoints

/-! ## Theorems -/

/-- Folding a step that preserves an invariant preserves it. -/
theorem foldlInvariant {σ α : Type} (step : σ → α → σ) (Inv : σ → Prop)
    (h : ∀ s a, Inv s → Inv (step s a)) :
    ∀ (l : List α) (s : σ), Inv s → Inv (l.foldl step s) := by
  intro l
  induction l with
  | nil => exact fun s hs => hs
  | cons a t ih => exact fun s hs => ih _ (h s a hs)

/-- Executing one operation on an unvisited edge and marking (at least) its
endpoints preserves the phase invariant. -/
theorem phaseInv_execute (m2 : Mesh) (vis2 : List Nat) (ev : Event)
    (st : PhaseState) (u v : Nat)
    (hu : u ∉ st.visited) (hv : v ∉ st.visited)
    (hend : ev.endpoints = [u, v])
    (hsub : ∀ x ∈ st.visited, x ∈ vis2) (hum : u ∈ vis2) (hvm : v ∈ vis2)
    (h : PhaseInv st) : PhaseInv ⟨m2, vis2, st.evs ++ [ev]⟩ := by
  obtain ⟨h1, h2⟩ := h
  constructor
  · intro e he x hx
    rcases List.mem_append.mp he with he | he
    · exact hsub x (h1 e he x hx)
    · rcases List.mem_singleton.mp he with rfl
      rw [hend] at hx
      rcases List.mem_cons.mp hx with rfl | hx
      · exact hum
      · rcases List.mem_singleton.mp hx with rfl
        exact hvm
  · rw [List.pairwise_append]
    refine ⟨h2, List.pairwise_singleton _ _, ?_⟩
    intro e he e2 he2 x hx hx2
    rcases List.mem_singleton.mp he2 with rfl
    rw [hend] at hx2
    have hxv := h1 e he x hx
    rcases List.mem_cons.mp hx2 with rfl | hx2
    · exact hu hxv
    · rcases List.mem_singleton.mp hx2 with rfl
      exact hv hxv

/-- The split-phase step preserves the phase invariant. -/
theorem splitStep_inv (k : Nat) (thr : ℚ) (allow : Bool) (st : PhaseState)
    (uv : Nat × Nat) (h : PhaseInv st) : PhaseInv (splitStep k thr allow st uv) := by
  unfold splitStep
  split_ifs with hvis hlen
  · exact h
  · exact h
  · push_neg at hvis
    exact phaseInv_execute _ _ _ st uv.1 uv.2 hvis.1 hvis.2 rfl
      (fun x hx => List.mem_cons_of_mem _ (List.mem_cons_of_mem _ hx))
      (List.mem_cons_self _ _) (List.mem_cons_of_mem _ (List.mem_cons_self _ _)) h

/-- The collapse-phase step preserves the phase invariant. -/
theorem collapseStep_inv (k : Nat) (thr : ℚ) (allow : Bool) (fx : List Nat)
    (st : PhaseState) (uv : Nat × Nat) (h : PhaseInv st) :
    PhaseInv (collapseStep k thr allow fx st uv) := by
  unfold collapseStep
  split_ifs with hvis hlen
  · exact h
  · exact h
  · push_neg at hvis
    refine phaseInv_execute _ _ _ st uv.1 uv.2 hvis.1 hvis.2 rfl ?_
      (List.mem_cons_self _ _) (List.mem_cons_of_mem _ (List.mem_cons_self _ _)) h
    intro x hx
    exact List.mem_cons_of_mem _ (List.mem_cons_of_mem _ (List.mem_append_right _ hx))

/-- The swap-phase step preserves the phase invariant. -/
theorem swapStep_inv (k : Nat) (allow : Bool) (B : List Nat) (st : PhaseState)
    (uv : Nat × Nat) (h : PhaseInv st) : PhaseInv (swapStep k allow B st uv) := by
  unfold swapStep
  by_cases hvis : uv.1 ∈ st.visited ∨ uv.2 ∈ st.visited
  · rw [if_pos hvis]; exact h
  · rw [if_neg hvis]
    push_neg at hvis
    rcases st.mesh.halfedgeFace uv.1 uv.2 with _ | f1 <;>
      rcases st.mesh.halfedgeFace uv.2 uv.1 with _ | f2 <;>
        simp only [] <;>
          first
          | exact h
          | (split_ifs <;>
              first
              | exact h
              | exact phaseInv_execute _ _ _ st uv.1 uv.2 hvis.1 hvis.2 rfl
                  (fun x hx => List.mem_cons_of_mem _ (List.mem_cons_of_mem _ hx))
                  (List.mem_cons_self _ _)
                  (List.mem_cons_of_mem _ (List.mem_cons_self _ _)) h)

/-- **C7.** Within any single split phase, and within any single collapse
phase, no two operator calls of that phase share an endpoint vertex: the
visitation discipline marks both endpoints of every call, and an edge
touching a marked vertex is skipped.  (The swap phase enjoys the same
property, included for completeness.) -/
theorem C7_phase_operations_endpoint_disjoint (k : Nat) (thr thrc : ℚ)
    (allow allowc allows : Bool) (fx B : List Nat) (m : Mesh) :
    (splitPhase k thr allow m).evs.Pairwise Event.disjointEndpoints ∧
      (collapsePhase k thrc allowc fx m).evs.Pairwise Event.disjointEndpoints ∧
      (swapPhase k allows B m).evs.Pairwise Event.disjointEndpoints := by
  have h0 : PhaseInv ⟨m, [], []⟩ := ⟨by simp, List.Pairwise.nil⟩
  exact ⟨(foldlInvariant _ PhaseInv (splitStep_inv k thr allow) m.edges _ h0).2,
    (foldlInvariant _ PhaseInv (collapseStep_inv k thrc allowc fx) m.edges _ h0).2,
    (foldlInvariant _ PhaseInv (swapStep_inv k allows B) m.edges _ h0).2⟩


/-- **C9.** For every scheme name other than the five recognized ones,
`mesh_subdivide` fails fast with `NotImplementedError`; no mesh is produced
(the error value carries none, and the input mesh, being a pure value, is
unchanged). -/
theorem C9_unsupported_scheme_fails_fast (m : Mesh) (k : Nat) (s : String)
    (h1 : s ≠ "tri") (h2 : s ≠ "quad") (h3 : s ≠ "corner")
    (h4 : s ≠ "catmullclark") (h5 : s ≠ "doosabin") :
    mesh_subdivide m s k = .error .notImplementedError := by
  unfold mesh_subdivide
  split_ifs <;> first | rfl | contradiction

/-- Witness for C9 at the concrete scheme name `"hexa"`. -/
theorem C9_unsupported_scheme_fails_fast_witness :
    ("hexa" ≠ "tri" ∧ "hexa" ≠ "quad" ∧ "hexa" ≠ "corner" ∧
      "hexa" ≠ "catmullclark" ∧ "hexa" ≠ "doosabin") ∧
    mesh_subdivide unitQuad "hexa" 1 = .error .notImplementedError :=
  ⟨⟨by decide, by decide, by decide, by decide, by decide⟩,
   C9_unsupported_scheme_fails_fast unitQuad 1 "hexa"
     (by decide) (by decide) (by decide) (by decide) (by decide)⟩

/-- **C10.** The dispatcher recognizes exactly the scheme names `tri`,
`quad`, `corner`, `catmullclark` and `doosabin` (a run returns a mesh
precisely for these); in particular `loop` raises `NotImplementedError` for
every mesh and level, even though the Loop scheme is implemented as
`trimesh_subdivide_loop` (which at level 0 returns the copied input). -/
theorem C10_recognized_schemes_exact :
    (∀ (m : Mesh) (k : Nat),
        mesh_subdivide m "loop" k = .error .notImplementedError) ∧
    (∀ (m : Mesh) (k : Nat) (s : String),
        (∃ r, mesh_subdivide m s k = .ok r) ↔
          s = "tri" ∨ s = "quad" ∨ s = "corner" ∨
            s = "catmullclark" ∨ s = "doosabin") ∧
    (∀ (m : Mesh) (fx : List Nat), trimesh_subdivide_loop m 0 fx = m) := by
  refine ⟨fun m k => rfl, fun m k s => ?_, fun m fx => rfl⟩
  unfold mesh_subdivide
  split_ifs with h1 h2 h3 h4 h5 <;> simp_all

unseal Rat.add Rat.mul Rat.inv Rat.sub Nat.gcd Nat.sqrt.iter in
/-- **C2, counterexample.**  On the collinear fan with `kmax = 12` and
`divergence = 1/2`, the optimizer terminates early at round 10 (the trace
carries `breakAt 10`), where the convergence check saw the old snapshot
`num_vertices_1 = 5` and the current count `num_vertices_2 = 8`; yet the
claim's ratio `|1 - V_now/V_old| = |1 - 8/5| = 3/5` is *not* below the
divergence threshold — the code compares `|1 - V_old/V_now| = 3/8` instead. -/
theorem C2_ratio_direction_counterexample :
    pDivergence.kmax = 12 ∧
    Event.check 10 5 8 ∈ runTrace fanMesh pDivergence ∧
    Event.breakAt 10 ∈ runTrace fanMesh pDivergence ∧
    ¬(|1 - (8 : ℚ) / 5| < pDivergence.divergence) ∧
    |1 - (5 : ℚ) / 8| < pDivergence.divergence := by
  decide

unseal Rat.add Rat.mul Rat.inv Rat.sub Nat.gcd Nat.sqrt.iter in
/-- **C3, counterexample.**  One optimizer round on the rectangle fan with
the interior vertex `4` in the caller-supplied fixed set and smoothing on:
the round performs no split/collapse/swap (the trace is exactly one
smoothing event), yet vertex `4` moves — the smoothing step passes the
*boundary* set, not the caller's fixed set, to `smooth_area`. -/
theorem C3_fixed_vertex_smoothed_counterexample :
    (4 : Nat) ∈ pFixedSmooth.fixed ∧
    rectMesh.isVertexOnBoundary 4 = false ∧
    runTrace rectMesh pFixedSmooth = [Event.smoothed 0] ∧
    (runMesh rectMesh pFixedSmooth).vertexCoordinates 4 = (2, 3 / 2, 0) ∧
    rectMesh.vertexCoordinates 4 = (1, 1, 0) := by
  decide

unseal Rat.add Rat.mul Rat.inv Rat.sub Nat.gcd Nat.sqrt.iter in
/-- **C5, counterexample.**  None of the three invalid configurations fails:
a negative target runs to completion and even splits an edge (a mutation),
and `tol = 2` as well as `kmax = 1` run to completion without any failure. -/
theorem C5_no_validation_counterexample :
    (pNegTarget.target < 0 ∧ runOk fanMesh pNegTarget = true ∧
      Event.split 0 1 4 ∈ runTrace fanMesh pNegTarget ∧
      (runMesh fanMesh pNegTarget).vertexCount = 6) ∧
    (pBadTol.tol = 2 ∧ runOk fanMesh pBadTol = true) ∧
    (pBadKmax.kmax = 1 ∧ runOk fanMesh pBadKmax = true) := by
  decide

unseal Rat.add Rat.mul Rat.inv Rat.sub Nat.gcd Nat.sqrt.iter in
/-- **C8, counterexample.**  The same early-terminating run with a callback
supplied: the callback fires at the end of rounds 0 through 9, but *not* on
round 10, the round whose convergence check triggers early termination — the
`break` precedes the callback invocation. -/
theorem C8_no_callback_on_break_round_counterexample :
    pCallback.hasCallback = true ∧
    Event.callback 9 ∈ runTrace fanMesh pCallback ∧
    Event.breakAt 10 ∈ runTrace fanMesh pCallback ∧
    Event.callback 10 ∉ runTrace fanMesh pCallback := by
  decide

/-- **C1.** In the swap phase, an edge `(u, v)` whose endpoints are both
unvisited and whose two incident faces exist (third vertices `v1`, `v2`) is
swapped if and only if, with `d(x)` the vertex degree increased by 2 when
`x` is in the boundary set, `|d(u)-6| + |d(v)-6| + |d(v1)-6| + |d(v2)-6|` is
strictly greater than `|d(u)-7| + |d(v)-7| + |d(v1)-5| + |d(v2)-5|`; in
particular equal error sums produce no swap. -/
theorem C1_swap_decision_strict (k : Nat) (allow : Bool) (B : List Nat)
    (st : PhaseState) (u v f1 f2 : Nat)
    (hu : u ∉ st.visited) (hv : v ∉ st.visited)
    (h1 : st.mesh.halfedgeFace u v = some f1)
    (h2 : st.mesh.halfedgeFace v u = some f2) :
    (swapStep k allow B st (u, v)).evs = st.evs ++ [Event.swap k u v] ↔
      |correctedValency st.mesh B u - 6| + |correctedValency st.mesh B v - 6| +
          |correctedValency st.mesh B (prevInCycle (st.mesh.faceVertices f1) u) - 6| +
          |correctedValency st.mesh B (prevInCycle (st.mesh.faceVertices f2) v) - 6| >
        |correctedValency st.mesh B u - 7| + |correctedValency st.mesh B v - 7| +
          |correctedValency st.mesh B (prevInCycle (st.mesh.faceVertices f1) u) - 5| +
          |correctedValency st.mesh B (prevInCycle (st.mesh.faceVertices f2) v) - 5| := by
  unfold swapStep
  rw [if_neg (by simp [hu, hv])]
  simp only [h1, h2, correctedValency]
  generalize ((st.mesh.vertexDegree u + (if u ∈ B then 2 else 0) : ℕ) : ℤ) = a
  generalize ((st.mesh.vertexDegree v + (if v ∈ B then 2 else 0) : ℕ) : ℤ) = b
  generalize ((st.mesh.vertexDegree (prevInCycle (st.mesh.faceVertices f1) u) +
      (if prevInCycle (st.mesh.faceVertices f1) u ∈ B then 2 else 0) : ℕ) : ℤ) = c
  generalize ((st.mesh.vertexDegree (prevInCycle (st.mesh.faceVertices f2) v) +
      (if prevInCycle (st.mesh.faceVertices f2) v ∈ B then 2 else 0) : ℕ) : ℤ) = d
  split_ifs with hle
  · refine iff_of_false (fun hap => ?_) (not_lt.mpr hle)
    have := congrArg List.length hap
    simp at this
  · exact iff_of_true rfl (not_le.mp hle)

/-- Witness for C1: in the two-triangle mesh the corrected valencies give
equal error sums (14 on both sides), and indeed no swap happens. -/
theorem C1_swap_decision_strict_witness :
    ((0 : Nat) ∉ (⟨twoTri, [], []⟩ : PhaseState).visited ∧
      twoTri.halfedgeFace 0 1 = some 0 ∧ twoTri.halfedgeFace 1 0 = some 1) ∧
    ¬((swapStep 2 false [] ⟨twoTri, [], []⟩ (0, 1)).evs =
        (⟨twoTri, [], []⟩ : PhaseState).evs ++ [Event.swap 2 0 1]) := by
  refine ⟨⟨by decide, by decide, by decide⟩, fun hap => ?_⟩
  have hgt := (C1_swap_decision_strict 2 false [] ⟨twoTri, [], []⟩ 0 1 0 1
    (by decide) (by decide) (by decide) (by decide)).mp hap
  exact absurd hgt (by decide)

/-- **C6.** The split and collapse phases compare edge lengths against
`lmax + dlmax` and `lmin - dlmin`; the slacks follow the claim's formulas
(`lmin·fac·(1 - k/(kmax/2))`, `lmax·fac·(1 - k/(kmax/2))` while
`k ≤ kmax/2`, zero afterwards), and the optimizer runs its loop with
`fac = (max initial edge length / 2) / target`,
`lmin = (1 - tol)·(4/5)·target` and `lmax = (1 + tol)·(4/3)·target`. -/
theorem C6_thresholds_and_slacks (fac lmin lmax : ℚ) (kmax k : Nat) :
    (roundSlacks fac lmin lmax ((kmax : ℚ) / 2) k =
        if (k : ℚ) ≤ (kmax : ℚ) / 2 then
          (lmin * fac * (1 - (k : ℚ) / ((kmax : ℚ) / 2)),
            lmax * fac * (1 - (k : ℚ) / ((kmax : ℚ) / 2)))
        else (0, 0)) ∧
    (∀ (p : OptParams) (dlmin dlmax : ℚ) (B : List Nat) (m : Mesh) (j : Nat),
        optRoundPhase p lmin lmax dlmin dlmax B 1 m j =
            splitPhase j (lmax + dlmax) p.allow_boundary_split m ∧
          optRoundPhase p lmin lmax dlmin dlmax B 2 m j =
            collapsePhase j (lmin - dlmin) p.allow_boundary_collapse p.fixed m) ∧
    (∀ (j : Nat) (thr : ℚ) (allow : Bool) (st : PhaseState) (u v : Nat),
        u ∉ st.visited → v ∉ st.visited →
          ((splitStep j thr allow st (u, v)).evs = st.evs ++ [Event.split j u v] ↔
            st.mesh.edgeLength u v > thr)) ∧
    (∀ (j : Nat) (thr : ℚ) (allow : Bool) (fx : List Nat) (st : PhaseState)
        (u v : Nat),
        u ∉ st.visited → v ∉ st.visited →
          ((collapseStep j thr allow fx st (u, v)).evs =
              st.evs ++ [Event.collapse j u v] ↔
            st.mesh.edgeLength u v < thr)) ∧
    (∀ (m : Mesh) (p : OptParams) (L : ℚ),
        (m.edges.map (fun uv => m.edgeLength uv.1 uv.2)).max? = some L →
          p.target ≠ 0 →
          trimesh_optimise_topology m p =
            .ok (let fin := (List.range p.kmax).foldl
                  (optRound p (L / 2 / p.target)
                    ((1 - p.tol) * (4 / 5) * p.target)
                    ((1 + p.tol) * (4 / 3) * p.target)
                    ((p.kmax : ℚ) / 2))
                  ⟨m, m.verticesOnBoundary, 0, 0, [], false⟩
                ⟨fin.mesh, fin.trace⟩)) := by
  refine ⟨?_, fun p dlmin dlmax B m j => ⟨rfl, rfl⟩, ?_, ?_, ?_⟩
  · unfold roundSlacks
    split_ifs with h
    · exact Prod.ext (by ring) (by ring)
    · rfl
  · intro j thr allow st u v hu hv
    unfold splitStep
    rw [if_neg (by simp [hu, hv])]
    split_ifs with hlen
    · refine iff_of_false (fun hap => ?_) (not_lt.mpr hlen)
      have := congrArg List.length hap
      simp at this
    · exact iff_of_true rfl (not_le.mp hlen)
  · intro j thr allow fx st u v hu hv
    unfold collapseStep
    rw [if_neg (by simp [hu, hv])]
    split_ifs with hlen
    · refine iff_of_false (fun hap => ?_) (not_lt.mpr hlen)
      have := congrArg List.length hap
      simp at this
    · exact iff_of_true rfl (lt_of_not_ge hlen)
  · intro m p L hL ht
    unfold trimesh_optimise_topology
    rw [hL]
    simp only [ht, if_false]

/-- Witness for C6 at round 4 of the divergence run's configuration: the
split-phase step on the unvisited edge `(0, 1)` of the fan mesh decides by
comparing the edge length against the threshold. -/
theorem C6_thresholds_and_slacks_witness :
    ((0 : Nat) ∉ (⟨fanMesh, [], []⟩ : PhaseState).visited ∧
      (1 : Nat) ∉ (⟨fanMesh, [], []⟩ : PhaseState).visited) ∧
    ((splitStep 4 (20 / 9) false ⟨fanMesh, [], []⟩ (0, 1)).evs =
        (⟨fanMesh, [], []⟩ : PhaseState).evs ++ [Event.split 4 0 1] ↔
      fanMesh.edgeLength 0 1 > 20 / 9) :=
  ⟨⟨by decide, by decide⟩,
   (C6_thresholds_and_slacks 2 (4 / 5) (4 / 3) 12 4).2.2.1 4 (20 / 9) false
     ⟨fanMesh, [], []⟩ 0 1 (by decide) (by decide)⟩

/-- Looking a key up in a mapped association list is unchanged when the map
preserves keys and fixes every entry carrying that key. -/
theorem lookup_map_fixed {β : Type} (v : Nat) (g : Nat × β → Nat × β)
    (hkey : ∀ e, (g e).1 = e.1) (hfix : ∀ e : Nat × β, e.1 = v → g e = e) :
    ∀ l : List (Nat × β), (l.map g).lookup v = l.lookup v := by
  intro l
  induction l with
  | nil => rfl
  | cons e t ih =>
      obtain ⟨a, b⟩ := e
      simp only [List.map_cons, List.lookup]
      rw [hkey (a, b)]
      by_cases hav : v = a
      · rw [hfix (a, b) hav.symm]
        simp [hav, ih]
      · rw [beq_false_of_ne hav]
        exact ih

/-- **C3, amended.**  The caller-supplied fixed set is exempt from collapse
only; the end-of-round smoothing step holds the *boundary* vertices fixed:
every boundary vertex's coordinates survive the smoothing step unchanged,
while (per the counterexample) an interior caller-fixed vertex may move. -/
theorem C3_smoothing_holds_boundary_amended (m : Mesh) (v : Nat)
    (hb : v ∈ m.verticesOnBoundary) :
    (smoothStep m).1.vertexCoordinates v = m.vertexCoordinates v ∧
      (smoothStep m).2 = m.verticesOnBoundary ∧
      (∀ (u w : Nat) (allow : Bool) (fx : List Nat),
          u ∈ fx ∨ w ∈ fx → trimesh_collapse_edge m u w allow fx = m) := by
  refine ⟨?_, rfl, fun u w allow fx hf => by unfold trimesh_collapse_edge; rw [if_pos hf]⟩
  unfold smoothStep Mesh.vertexCoordinates
  simp only [smooth_area, List.range_succ, List.range_zero, List.nil_append,
    List.foldl_cons, List.foldl_nil]
  rw [lookup_map_fixed v _
    (fun e => by split_ifs <;> rfl)
    (fun e hev => by rw [if_pos (hev ▸ hb)])]

/-- Witness for C3 (amended) at the boundary vertex `0` of the rectangle
fan. -/
theorem C3_smoothing_holds_boundary_amended_witness :
    (0 : Nat) ∈ rectMesh.verticesOnBoundary ∧
      (smoothStep rectMesh).1.vertexCoordinates 0 = rectMesh.vertexCoordinates 0 :=
  ⟨by decide, (C3_smoothing_holds_boundary_amended rectMesh 0 (by decide)).1⟩

/-- **C5, amended.**  The optimizer validates nothing; the only
configuration that fails fast is a zero target, which hits the division in
the ramp-factor computation during setup, before any mutation (a mesh
without edges likewise fails in the `max()` during setup). -/
theorem C5_zero_target_fails_amended (m : Mesh) (p : OptParams)
    (h0 : p.target = 0) (hne : m.edges ≠ []) :
    trimesh_optimise_topology m p = .error .divisionByZero := by
  unfold trimesh_optimise_topology
  obtain ⟨L, hL⟩ : ∃ L, (m.edges.map fun uv => m.edgeLength uv.1 uv.2).max? = some L := by
    cases hmax : (m.edges.map fun uv => m.edgeLength uv.1 uv.2).max? with
    | none =>
        rw [List.max?_eq_none_iff, List.map_eq_nil_iff] at hmax
        exact absurd hmax hne
    | some L => exact ⟨L, rfl⟩
  rw [hL]
  simp only [h0, if_true]

/-- Witness for C5 (amended): the zero-target configuration on the fan. -/
theorem C5_zero_target_fails_amended_witness :
    pZeroTarget.target = 0 ∧ fanMesh.edges ≠ [] ∧
      trimesh_optimise_topology fanMesh pZeroTarget = .error .divisionByZero :=
  ⟨rfl, by decide, C5_zero_target_fails_amended fanMesh pZeroTarget rfl (by decide)⟩

/-- A split-phase step either leaves the call log unchanged or appends its
split call. -/
theorem splitStep_evs_cases (k : Nat) (thr : ℚ) (allow : Bool) (st : PhaseState)
    (uv : Nat × Nat) :
    (splitStep k thr allow st uv).evs = st.evs ∨
      (splitStep k thr allow st uv).evs = st.evs ++ [Event.split k uv.1 uv.2] := by
  unfold splitStep
  split_ifs <;> simp

/-- A collapse-phase step either leaves the call log unchanged or appends its
collapse call. -/
theorem collapseStep_evs_cases (k : Nat) (thr : ℚ) (allow : Bool) (fx : List Nat)
    (st : PhaseState) (uv : Nat × Nat) :
    (collapseStep k thr allow fx st uv).evs = st.evs ∨
      (collapseStep k thr allow fx st uv).evs = st.evs ++ [Event.collapse k uv.1 uv.2] := by
  unfold collapseStep
  split_ifs <;> simp

/-- A swap-phase step either leaves the call log unchanged or appends its
swap call. -/
theorem swapStep_evs_cases (k : Nat) (allow : Bool) (B : List Nat) (st : PhaseState)
    (uv : Nat × Nat) :
    (swapStep k allow B st uv).evs = st.evs ∨
      (swapStep k allow B st uv).evs = st.evs ++ [Event.swap k uv.1 uv.2] := by
  unfold swapStep
  by_cases hvis : uv.1 ∈ st.visited ∨ uv.2 ∈ st.visited
  · rw [if_pos hvis]; exact Or.inl rfl
  · rw [if_neg hvis]
    rcases st.mesh.halfedgeFace uv.1 uv.2 with _ | f1 <;>
      rcases st.mesh.halfedgeFace uv.2 uv.1 with _ | f2 <;>
        simp only [] <;>
          first
          | exact Or.inl trivial
          | exact Or.inl rfl
          | (split_ifs <;>
              first | exact Or.inl trivial | exact Or.inl rfl | exact Or.inr rfl)

/-- No phase ever logs a callback event. -/
theorem optRoundPhase_no_callback (j : Nat) (p : OptParams)
    (lmin lmax dlmin dlmax : ℚ) (B : List Nat) (c : Nat) (m : Mesh) (k : Nat) :
    Event.callback j ∉ (optRoundPhase p lmin lmax dlmin dlmax B c m k).evs := by
  have hstep : ∀ (st : PhaseState),
      Event.callback j ∉ st.evs →
      (∀ uv, Event.callback j ∉ (splitStep k (lmax + dlmax) p.allow_boundary_split st uv).evs) ∧
      (∀ uv, Event.callback j ∉
        (collapseStep k (lmin - dlmin) p.allow_boundary_collapse p.fixed st uv).evs) ∧
      (∀ uv, Event.callback j ∉ (swapStep k p.allow_boundary_swap B st uv).evs) := by
    intro st h
    refine ⟨fun uv => ?_, fun uv => ?_, fun uv => ?_⟩
    · rcases splitStep_evs_cases k (lmax + dlmax) p.allow_boundary_split st uv with hc | hc <;>
        simp [hc, h]
    · rcases collapseStep_evs_cases k (lmin - dlmin) p.allow_boundary_collapse p.fixed st uv
        with hc | hc <;> simp [hc, h]
    · rcases swapStep_evs_cases k p.allow_boundary_swap B st uv with hc | hc <;>
        simp [hc, h]
  unfold optRoundPhase splitPhase collapsePhase swapPhase
  split_ifs
  · exact foldlInvariant _ (fun st => Event.callback j ∉ st.evs)
      (fun st uv h => ((hstep st h).1 uv)) m.edges ⟨m, [], []⟩ (by simp)
  · exact foldlInvariant _ (fun st => Event.callback j ∉ st.evs)
      (fun st uv h => ((hstep st h).2.1 uv)) m.edges ⟨m, [], []⟩ (by simp)
  · exact foldlInvariant _ (fun st => Event.callback j ∉ st.evs)
      (fun st uv h => ((hstep st h).2.2 uv)) m.edges ⟨m, [], []⟩ (by simp)
  · simp

/-- **C2, amended.**  A (not yet terminated) round `k` sets the break flag
exactly when `(k - 10) % 20 = 0`, more than half of `kmax` rounds have run,
and `|1 - V_old / V_now| < divergence`, where `V_old` is the running
snapshot (refreshed from the mesh at the start of every round with
`k % 20 = 0`) and `V_now` the vertex count after the round's phase — the
ratio divides the *old* snapshot by the *current* count, the reciprocal of
the claim's. -/
theorem C2_convergence_check_amended (p : OptParams) (fac lmin lmax kS : ℚ)
    (st : OptState) (k : Nat) (hb : st.broke = false) :
    ((optRound p fac lmin lmax kS st k).broke = true ↔
      roundBreaks p.divergence kS
        (if k % 20 = 0 then st.mesh.vertexCount else st.nv1)
        (optRoundPhase p lmin lmax
            (roundSlacks fac lmin lmax kS k).1 (roundSlacks fac lmin lmax kS k).2
            st.boundary (st.count + 1) st.mesh k).mesh.vertexCount k) ∧
    ((optRound p fac lmin lmax kS st k).nv1 =
      if k % 20 = 0 then st.mesh.vertexCount else st.nv1) ∧
    (∀ (d : ℚ) (n1 n2 : Nat),
        roundBreaks d kS n1 n2 k ↔
          ((k : ℤ) - 10) % 20 = 0 ∧ |1 - (n1 : ℚ) / (n2 : ℚ)| < d ∧ (k : ℚ) > kS) := by
  refine ⟨?_, ?_, fun d n1 n2 => Iff.rfl⟩ <;>
    · unfold optRound
      rw [if_neg (by simp [hb])]
      by_cases hbr : roundBreaks p.divergence kS
          (if k % 20 = 0 then st.mesh.vertexCount else st.nv1)
          (optRoundPhase p lmin lmax (roundSlacks fac lmin lmax kS k).1
              (roundSlacks fac lmin lmax kS k).2 st.boundary (st.count + 1)
              st.mesh k).mesh.vertexCount k
      · rw [if_pos hbr]
        try simp [hbr]
      · rw [if_neg hbr]
        try simp [hbr]

/-- Witness for C2 (amended): a swap round (`k = 10`) on the fan with an old
snapshot of 5 vertices triggers the break. -/
theorem C2_convergence_check_amended_witness :
    (⟨fanMesh, [], 2, 5, [], false⟩ : OptState).broke = false ∧
      ((optRound pDivergence 2 (4 / 5) (4 / 3) 6 ⟨fanMesh, [], 2, 5, [], false⟩ 10).broke =
          true ↔
        roundBreaks pDivergence.divergence 6
          (if 10 % 20 = 0 then (fanMesh : Mesh).vertexCount
            else (⟨fanMesh, [], 2, 5, [], false⟩ : OptState).nv1)
          (optRoundPhase pDivergence (4 / 5) (4 / 3)
              (roundSlacks 2 (4 / 5) (4 / 3) 6 10).1
              (roundSlacks 2 (4 / 5) (4 / 3) 6 10).2
              (⟨fanMesh, [], 2, 5, [], false⟩ : OptState).boundary
              ((⟨fanMesh, [], 2, 5, [], false⟩ : OptState).count + 1)
              fanMesh 10).mesh.vertexCount 10) :=
  ⟨rfl,
   (C2_convergence_check_amended pDivergence 2 (4 / 5) (4 / 3) 6
     ⟨fanMesh, [], 2, 5, [], false⟩ 10 rfl).1⟩

/-- **C8, amended.**  A (not yet terminated) round `k` whose trace does not
already carry this round's callback appends exactly one callback event iff a
callback is supplied *and* the round's convergence check does not trigger
early termination: on the break round the callback is skipped. -/
theorem C8_callback_every_completed_round_amended (p : OptParams)
    (fac lmin lmax kS : ℚ) (st : OptState) (k : Nat) (hb : st.broke = false)
    (hnotin : Event.callback k ∉ st.trace) :
    (Event.callback k ∈ (optRound p fac lmin lmax kS st k).trace ↔
      p.hasCallback = true ∧
        ¬ roundBreaks p.divergence kS
            (if k % 20 = 0 then st.mesh.vertexCount else st.nv1)
            (optRoundPhase p lmin lmax
                (roundSlacks fac lmin lmax kS k).1 (roundSlacks fac lmin lmax kS k).2
                st.boundary (st.count + 1) st.mesh k).mesh.vertexCount k) := by
  unfold optRound
  rw [if_neg (by simp [hb])]
  by_cases hbr : roundBreaks p.divergence kS
      (if k % 20 = 0 then st.mesh.vertexCount else st.nv1)
      (optRoundPhase p lmin lmax (roundSlacks fac lmin lmax kS k).1
          (roundSlacks fac lmin lmax kS k).2 st.boundary (st.count + 1)
          st.mesh k).mesh.vertexCount k
  · rw [if_pos hbr]
    split_ifs <;> simp_all [optRoundPhase_no_callback]
  · rw [if_neg hbr]
    split_ifs <;> simp_all [optRoundPhase_no_callback]

/-- Witness for C8 (amended) at round 0 of a fresh state with a callback
supplied. -/
theorem C8_callback_every_completed_round_amended_witness :
    ((⟨fanMesh, [], 0, 0, [], false⟩ : OptState).broke = false ∧
      Event.callback 0 ∉ (⟨fanMesh, [], 0, 0, [], false⟩ : OptState).trace) ∧
    (Event.callback 0 ∈ (optRound pCallback 2 (4 / 5) (4 / 3) 6
        ⟨fanMesh, [], 0, 0, [], false⟩ 0).trace ↔
      pCallback.hasCallback = true ∧
        ¬ roundBreaks pCallback.divergence 6
            (if 0 % 20 = 0 then (fanMesh : Mesh).vertexCount
              else (⟨fanMesh, [], 0, 0, [], false⟩ : OptState).nv1)
            (optRoundPhase pCallback (4 / 5) (4 / 3)
                (roundSlacks 2 (4 / 5) (4 / 3) 6 0).1
                (roundSlacks 2 (4 / 5) (4 / 3) 6 0).2
                (⟨fanMesh, [], 0, 0, [], false⟩ : OptState).boundary
                ((⟨fanMesh, [], 0, 0, [], false⟩ : OptState).count + 1)
                fanMesh 0).mesh.vertexCount 0) :=
  ⟨⟨rfl, by decide⟩,
   C8_callback_every_completed_round_amended pCallback 2 (4 / 5) (4 / 3) 6
     ⟨fanMesh, [], 0, 0, [], false⟩ 0 rfl (by decide)⟩

/-- An always-allowed plain edge split adds exactly one vertex, keeps every
face key in place, and leaves the face-key counter unchanged. -/
theorem split_edge_true_counts (m : Mesh) (u v : Nat) :
    (m.split_edge u v true).1.vertexCount = m.vertexCount + 1 ∧
      (m.split_edge u v true).1.faceTable.map (·.1) = m.faceTable.map (·.1) ∧
      (m.split_edge u v true).1.nextF = m.nextF := by
  unfold Mesh.split_edge
  rw [if_neg (by simp)]
  refine ⟨?_, ?_, rfl⟩
  · simp [Mesh.vertexCount]
  · simp

/-- Folding the always-allowed split over an edge list adds one vertex per
edge and preserves face keys and the face-key counter. -/
theorem splitFold_counts :
    ∀ (l : List (Nat × Nat)) (s : Mesh),
      (l.foldl (fun s uv => (s.split_edge uv.1 uv.2 true).1) s).vertexCount =
          s.vertexCount + l.length ∧
        (l.foldl (fun s uv => (s.split_edge uv.1 uv.2 true).1) s).faceTable.map (·.1) =
          s.faceTable.map (·.1) ∧
        (l.foldl (fun s uv => (s.split_edge uv.1 uv.2 true).1) s).nextF = s.nextF := by
  intro l
  induction l with
  | nil => exact fun s => ⟨rfl, rfl, rfl⟩
  | cons uv t ih =>
      intro s
      obtain ⟨h1, h2, h3⟩ := split_edge_true_counts s uv.1 uv.2
      obtain ⟨g1, g2, g3⟩ := ih (s.split_edge uv.1 uv.2 true).1
      refine ⟨?_, ?_, ?_⟩
      · simp only [List.foldl_cons, g1, h1, List.length_cons]
        omega
      · simp only [List.foldl_cons, g2, h2]
      · simp only [List.foldl_cons, g3, h3]

/-- The mesh component of a Catmull-Clark split step is exactly the plain
split. -/
theorem ccSplitStep_mesh (bkeys : List Nat)
    (acc : Mesh × List (Nat × List Nat) × List Nat) (uv : Nat × Nat) :
    (ccSplitStep bkeys acc uv).1 = (acc.1.split_edge uv.1 uv.2 true).1 := by
  unfold ccSplitStep
  split_ifs <;> rfl

/-- The Catmull-Clark split pass adds one vertex per edge and preserves face
keys and the face-key counter. -/
theorem ccSplitFold_counts (bkeys : List Nat) :
    ∀ (l : List (Nat × Nat)) (acc : Mesh × List (Nat × List Nat) × List Nat),
      (l.foldl (ccSplitStep bkeys) acc).1.vertexCount = acc.1.vertexCount + l.length ∧
        (l.foldl (ccSplitStep bkeys) acc).1.faceTable.map (·.1) =
          acc.1.faceTable.map (·.1) ∧
        (l.foldl (ccSplitStep bkeys) acc).1.nextF = acc.1.nextF := by
  intro l
  induction l with
  | nil => exact fun acc => ⟨rfl, rfl, rfl⟩
  | cons uv t ih =>
      intro acc
      obtain ⟨h1, h2, h3⟩ := split_edge_true_counts acc.1 uv.1 uv.2
      obtain ⟨g1, g2, g3⟩ := ih (ccSplitStep bkeys acc uv)
      rw [ccSplitStep_mesh bkeys acc uv] at g1 g2 g3
      refine ⟨?_, ?_, ?_⟩
      · simp only [List.foldl_cons, g1, h1, List.length_cons]
        omega
      · simp only [List.foldl_cons, g2, h2]
      · simp only [List.foldl_cons, g3, h3]

/-- Filtering the entries with key `f` out of an association list removes
exactly `count f` many entries. -/
theorem filterKey_length {β : Type} (f : Nat) :
    ∀ l : List (Nat × β),
      (l.filter (fun e => e.1 ≠ f)).length + (l.map (·.1)).count f = l.length := by
  intro l
  induction l with
  | nil => rfl
  | cons e t ih =>
      by_cases hef : e.1 = f
      · rw [List.filter_cons_of_neg (by simp [hef])]
        rw [List.map_cons, hef, List.count_cons_self]
        simp only [List.length_cons]
        omega
      · rw [List.filter_cons_of_pos (by simp [hef])]
        rw [List.map_cons, List.count_cons_of_ne (fun h => hef h.symm)]
        simp only [List.length_cons]
        omega

/-- Filtering the entries with key `f` out of an association list leaves
every other key's count unchanged. -/
theorem filterKey_count_other {β : Type} (f g : Nat) (hg : g ≠ f) :
    ∀ l : List (Nat × β),
      ((l.filter (fun e => e.1 ≠ f)).map (·.1)).count g = (l.map (·.1)).count g := by
  intro l
  induction l with
  | nil => rfl
  | cons e t ih =>
      by_cases hef : e.1 = f
      · rw [List.filter_cons_of_neg (by simp [hef])]
        rw [List.map_cons, List.count_cons_of_ne (fun h => hg (hef ▸ h))]
        exact ih
      · rw [List.filter_cons_of_pos (by simp [hef]), List.map_cons, List.map_cons]
        rw [List.count_cons, List.count_cons, ih]

/-- `add_vertex` adds one vertex and leaves faces untouched. -/
theorem addVertex_counts (m : Mesh) (pt : Point) :
    (m.addVertex pt).1.vertexCount = m.vertexCount + 1 ∧
      (m.addVertex pt).1.faceTable = m.faceTable ∧
      (m.addVertex pt).1.nextF = m.nextF :=
  ⟨by simp [Mesh.addVertex, Mesh.vertexCount], rfl, rfl⟩

/-- Deleting the face `f` removes exactly the entries keyed `f` and leaves
vertices, the key counter, and the other keys' counts untouched. -/
theorem removeFace_counts (m : Mesh) (f : Nat) :
    (m.removeFace f).vertexTable = m.vertexTable ∧
      (m.removeFace f).faceTable.length + (m.faceTable.map (·.1)).count f =
        m.faceTable.length ∧
      (m.removeFace f).nextF = m.nextF ∧
      (∀ g, g ≠ f →
        ((m.removeFace f).faceTable.map (·.1)).count g =
          (m.faceTable.map (·.1)).count g) :=
  ⟨rfl, filterKey_length f m.faceTable, rfl,
   fun g hg => filterKey_count_other f g hg m.faceTable⟩

/-- Folding `add_face` over a corner list adds one face per corner with a
fresh key each time, never touching vertices or the counts of
already-existing smaller keys. -/
theorem addFaceFold_counts (pick : Nat → List Nat) :
    ∀ (l : List Nat) (s : Mesh),
      (l.foldl (fun s key => (s.addFace (pick key)).1) s).vertexTable =
          s.vertexTable ∧
        (l.foldl (fun s key => (s.addFace (pick key)).1) s).faceTable.length =
          s.faceTable.length + l.length ∧
        s.nextF ≤ (l.foldl (fun s key => (s.addFace (pick key)).1) s).nextF ∧
        (∀ g, g < s.nextF →
          ((l.foldl (fun s key => (s.addFace (pick key)).1) s).faceTable.map
              (·.1)).count g =
            (s.faceTable.map (·.1)).count g) := by
  intro l
  induction l with
  | nil => exact fun s => ⟨rfl, rfl, le_refl _, fun g _ => rfl⟩
  | cons a t ih =>
      intro s
      obtain ⟨i1, i2, i3, i4⟩ := ih (s.addFace (pick a)).1
      refine ⟨by rw [List.foldl_cons]; exact i1, ?_, ?_, ?_⟩
      · rw [List.foldl_cons, i2]
        simp [Mesh.addFace]
        omega
      · rw [List.foldl_cons]
        exact le_trans (by simp [Mesh.addFace]) i3
      · intro g hg
        rw [List.foldl_cons, i4 g (by simp [Mesh.addFace]; omega)]
        simp only [Mesh.addFace, List.map_append, List.map_cons, List.map_nil]
        rw [List.count_append,
          List.count_eq_zero_of_not_mem (show g ∉ [s.nextF] by simp; omega)]
        omega

/-- The quad-subdivision per-face step: one centroid vertex added, the
original face (present exactly once) replaced by one quad per corner (fresh
keys), other small keys untouched. -/
theorem quadFaceStep_counts (mesh subd : Mesh) (f : Nat)
    (hcount : (subd.faceTable.map (·.1)).count f = 1) (hlt : f < subd.nextF) :
    (quadFaceStep mesh subd f).vertexCount = subd.vertexCount + 1 ∧
      (quadFaceStep mesh subd f).faceTable.length + 1 =
        subd.faceTable.length + (mesh.faceVertices f).length ∧
      (∀ g, g < subd.nextF → g ≠ f →
        ((quadFaceStep mesh subd f).faceTable.map (·.1)).count g =
          (subd.faceTable.map (·.1)).count g) ∧
      subd.nextF ≤ (quadFaceStep mesh subd f).nextF := by
  obtain ⟨v1, v2, v3⟩ := addVertex_counts subd (mesh.faceCentroid f)
  simp only [quadFaceStep]
  obtain ⟨a1, a2, a3, a4⟩ :=
    addFaceFold_counts
      (quadCornerPick subd f (subd.addVertex (mesh.faceCentroid f)).2)
      (mesh.faceVertices f) (subd.addVertex (mesh.faceCentroid f)).1
  obtain ⟨r1, r2, r3, r4⟩ :=
    removeFace_counts
      ((mesh.faceVertices f).foldl
        (fun s key =>
          (s.addFace
            (quadCornerPick subd f (subd.addVertex (mesh.faceCentroid f)).2 key)).1)
        (subd.addVertex (mesh.faceCentroid f)).1)
      f
  refine ⟨?_, ?_, ?_, ?_⟩
  · unfold Mesh.vertexCount
    rw [r1, a1]
    exact v1
  · have hcf := a4 f (by rw [v3]; exact hlt)
    rw [v2] at hcf
    rw [hcf, hcount] at r2
    rw [v2] at a2
    omega
  · intro g hglt hgf
    rw [r4 g hgf, a4 g (by rw [v3]; exact hglt), v2]
  · rw [r3]
    rw [v3] at a3
    exact a3

/-- Folding the quad per-face step over distinct, present face keys adds one
vertex per face and trades each original face for one face per corner. -/
theorem quadFaceFold_counts (mesh : Mesh) :
    ∀ (fkeys : List Nat) (subd : Mesh), fkeys.Nodup →
      (∀ f ∈ fkeys, (subd.faceTable.map (·.1)).count f = 1 ∧ f < subd.nextF) →
      (fkeys.foldl (quadFaceStep mesh) subd).vertexCount =
          subd.vertexCount + fkeys.length ∧
        (fkeys.foldl (quadFaceStep mesh) subd).faceTable.length + fkeys.length =
          subd.faceTable.length +
            (fkeys.map (fun f => (mesh.faceVertices f).length)).sum := by
  intro fkeys
  induction fkeys with
  | nil => exact fun subd _ _ => ⟨rfl, rfl⟩
  | cons f t ih =>
      intro subd hnd hpre
      obtain ⟨hc, hlt⟩ := hpre f (List.mem_cons_self f t)
      obtain ⟨q1, q2, q3, q4⟩ := quadFaceStep_counts mesh subd f hc hlt
      have hpre2 : ∀ g ∈ t, ((quadFaceStep mesh subd f).faceTable.map (·.1)).count g = 1 ∧
          g < (quadFaceStep mesh subd f).nextF := by
        intro g hgt
        obtain ⟨hcg, hltg⟩ := hpre g (List.mem_cons_of_mem f hgt)
        have hgf : g ≠ f := fun hh => (List.nodup_cons.mp hnd).1 (hh ▸ hgt)
        exact ⟨by rw [q3 g hltg hgf]; exact hcg, lt_of_lt_of_le hltg q4⟩
      obtain ⟨g1, g2⟩ := ih (quadFaceStep mesh subd f) (List.nodup_cons.mp hnd).2 hpre2
      constructor
      · rw [List.foldl_cons, g1, q1, List.length_cons]
        omega
      · rw [List.foldl_cons, List.map_cons, List.sum_cons, List.length_cons]
        omega

/-- In an association list with distinct keys, looking up the key of an entry
returns that entry's value. -/
theorem lookup_self_of_nodup {β : Type} :
    ∀ l : List (Nat × β), (l.map (·.1)).Nodup → ∀ e ∈ l, l.lookup e.1 = some e.2 := by
  intro l
  induction l with
  | nil => intro _ e he; exact absurd he (List.not_mem_nil e)
  | cons a t ih =>
      intro hnd e he
      rw [List.map_cons] at hnd
      obtain ⟨hh, ht⟩ := List.nodup_cons.mp hnd
      rcases List.mem_cons.mp he with rfl | het
      · simp [List.lookup]
      · have hne : e.1 ≠ a.1 := by
          intro hcon
          exact hh (hcon ▸ List.mem_map_of_mem (·.1) het)
        simp only [List.lookup]
        rw [beq_false_of_ne hne]
        exact ih ht e het

/-- Over distinct keys, per-key face degrees agree with the table entries. -/
theorem faceKeys_degree_sum (m : Mesh) (h : (m.faceTable.map (·.1)).Nodup) :
    m.faceKeys.map (fun f => (m.faceVertices f).length) =
      m.faceTable.map (fun e => e.2.length) := by
  unfold Mesh.faceKeys
  rw [List.map_map]
  refine List.map_congr_left ?_
  intro e he
  show (m.faceVertices e.1).length = e.2.length
  unfold Mesh.faceVertices
  rw [lookup_self_of_nodup m.faceTable h e he]
  rfl

/-- A fold whose step never touches the vertex table's length or the face
table preserves both counts. -/
theorem foldl_pres_counts {α : Type} (step : Mesh → α → Mesh)
    (hstep : ∀ (s : Mesh) (a : α),
      (step s a).vertexCount = s.vertexCount ∧
        (step s a).faceTable = s.faceTable) :
    ∀ (l : List α) (s : Mesh),
      (l.foldl step s).vertexCount = s.vertexCount ∧
        (l.foldl step s).faceTable = s.faceTable := by
  intro l
  induction l with
  | nil => exact fun s => ⟨rfl, rfl⟩
  | cons a t ih =>
      intro s
      obtain ⟨i1, i2⟩ := ih (step s a)
      obtain ⟨h1, h2⟩ := hstep s a
      exact ⟨by rw [List.foldl_cons, i1, h1], by rw [List.foldl_cons, i2, h2]⟩

/-- Overwriting coordinates changes neither count. -/
theorem setVertexCoordinates_counts (m : Mesh) (u : Nat) (pt : Point) :
    (m.setVertexCoordinates u pt).vertexCount = m.vertexCount ∧
      (m.setVertexCoordinates u pt).faceTable = m.faceTable :=
  ⟨by simp [Mesh.setVertexCoordinates, Mesh.vertexCount], rfl⟩

/-- The Catmull-Clark edge-point smoothing pass preserves both counts. -/
theorem ccEdgePointFold_counts (keyXYZ : List (Nat × Point)) (subd : Mesh)
    (eps : List Nat) :
    (ccEdgePointFold keyXYZ subd eps).vertexCount = subd.vertexCount ∧
      (ccEdgePointFold keyXYZ subd eps).faceTable = subd.faceTable := by
  unfold ccEdgePointFold
  exact foldl_pres_counts _ (fun s a => setVertexCoordinates_counts s a _) eps subd

/-- The Catmull-Clark vertex-point pass preserves both counts. -/
theorem ccVertexPointFold_counts (mesh : Mesh) (fixed bkeys : List Nat)
    (bep : List (Nat × List Nat)) (keyXYZ : List (Nat × Point)) (subd : Mesh) :
    (ccVertexPointFold mesh fixed bkeys bep keyXYZ subd).vertexCount =
        subd.vertexCount ∧
      (ccVertexPointFold mesh fixed bkeys bep keyXYZ subd).faceTable =
        subd.faceTable := by
  unfold ccVertexPointFold
  refine foldl_pres_counts _ (fun s a => ?_) mesh.vertexKeys subd
  split_ifs
  · exact ⟨rfl, rfl⟩
  · exact setVertexCoordinates_counts s a _
  · exact setVertexCoordinates_counts s a _

/-- **C4.** For every well-formed mesh with `V` vertices, `E` edges and `F`
faces, one level of quad subdivision produces exactly `V + E + F` vertices
and `sum of the original face degrees` faces (one quad per original face
corner); one level of Catmull-Clark, which shares the quad topology and then
only moves coordinates, produces the same counts. -/
theorem C4_quad_catmullclark_counts (m : Mesh) (fixed : List Nat) (h : m.WF) :
    ((mesh_subdivide_quad m 1).vertexCount =
        m.vertexCount + m.edges.length + m.faceCount ∧
      (mesh_subdivide_quad m 1).faceCount =
        (m.faceTable.map (fun e => e.2.length)).sum) ∧
    ((mesh_subdivide_catmullclark m 1 fixed).vertexCount =
        m.vertexCount + m.edges.length + m.faceCount ∧
      (mesh_subdivide_catmullclark m 1 fixed).faceCount =
        (m.faceTable.map (fun e => e.2.length)).sum) := by
  obtain ⟨hnd, hlt⟩ := h
  have hFlen : m.faceKeys.length = m.faceCount := List.length_map _ _
  have hF2 : m.faceKeys.length = m.faceTable.length := List.length_map _ _
  have hdeg := faceKeys_degree_sum m hnd
  constructor
  · have hq : mesh_subdivide_quad m 1 =
        m.faceKeys.foldl (quadFaceStep m)
          (m.edges.foldl (fun s uv => (s.split_edge uv.1 uv.2 true).1) m) := by
      simp [mesh_subdivide_quad, List.range_succ, Mesh.copy]
    obtain ⟨s1, s2, s3⟩ := splitFold_counts m.edges m
    have hpre : ∀ f ∈ m.faceKeys,
        ((m.edges.foldl (fun s uv => (s.split_edge uv.1 uv.2 true).1)
            m).faceTable.map (·.1)).count f = 1 ∧
          f < (m.edges.foldl (fun s uv => (s.split_edge uv.1 uv.2 true).1) m).nextF := by
      intro f hf
      refine ⟨?_, ?_⟩
      · rw [s2]
        exact List.count_eq_one_of_mem hnd hf
      · rw [s3]
        exact hlt f hf
    obtain ⟨q1, q2⟩ := quadFaceFold_counts m m.faceKeys _ hnd hpre
    constructor
    · rw [hq, q1, s1, hFlen]
    · rw [hq]
      have hslen : (m.edges.foldl (fun s uv => (s.split_edge uv.1 uv.2 true).1)
          m).faceTable.length = m.faceCount := by
        have := congrArg List.length s2
        rwa [List.length_map, List.length_map] at this
      rw [hdeg] at q2
      unfold Mesh.faceCount at hslen ⊢
      omega
  · have hcc : mesh_subdivide_catmullclark m 1 fixed =
        ccVertexPointFold m fixed m.verticesOnBoundary
          (m.edges.foldl (ccSplitStep m.verticesOnBoundary)
            (m, m.verticesOnBoundary.map (fun b => (b, ([] : List Nat))),
              ([] : List Nat))).2.1
          (m.faceKeys.foldl (quadFaceStep m)
            (m.edges.foldl (ccSplitStep m.verticesOnBoundary)
              (m, m.verticesOnBoundary.map (fun b => (b, ([] : List Nat))),
                ([] : List Nat))).1).vertexTable
          (ccEdgePointFold
            (m.faceKeys.foldl (quadFaceStep m)
              (m.edges.foldl (ccSplitStep m.verticesOnBoundary)
                (m, m.verticesOnBoundary.map (fun b => (b, ([] : List Nat))),
                  ([] : List Nat))).1).vertexTable
            (m.faceKeys.foldl (quadFaceStep m)
              (m.edges.foldl (ccSplitStep m.verticesOnBoundary)
                (m, m.verticesOnBoundary.map (fun b => (b, ([] : List Nat))),
                  ([] : List Nat))).1)
            (m.edges.foldl (ccSplitStep m.verticesOnBoundary)
              (m, m.verticesOnBoundary.map (fun b => (b, ([] : List Nat))),
                ([] : List Nat))).2.2) := by
      simp [mesh_subdivide_catmullclark, catmullclarkLevel, ccSplitFold,
        List.range_succ, Mesh.copy]
    obtain ⟨c1, c2, c3⟩ := ccSplitFold_counts m.verticesOnBoundary m.edges
      (m, m.verticesOnBoundary.map (fun b => (b, ([] : List Nat))), ([] : List Nat))
    have hpre2 : ∀ f ∈ m.faceKeys,
        (((m.edges.foldl (ccSplitStep m.verticesOnBoundary)
              (m, m.verticesOnBoundary.map (fun b => (b, ([] : List Nat))),
                ([] : List Nat))).1.faceTable.map (·.1)).count f = 1) ∧
          f < (m.edges.foldl (ccSplitStep m.verticesOnBoundary)
              (m, m.verticesOnBoundary.map (fun b => (b, ([] : List Nat))),
                ([] : List Nat))).1.nextF := by
      intro f hf
      refine ⟨?_, ?_⟩
      · rw [c2]
        exact List.count_eq_one_of_mem hnd hf
      · rw [c3]
        exact hlt f hf
    obtain ⟨q1c, q2c⟩ := quadFaceFold_counts m m.faceKeys _ hnd hpre2
    obtain ⟨e1, e2⟩ := ccEdgePointFold_counts
      (m.faceKeys.foldl (quadFaceStep m)
        (m.edges.foldl (ccSplitStep m.verticesOnBoundary)
          (m, m.verticesOnBoundary.map (fun b => (b, ([] : List Nat))),
            ([] : List Nat))).1).vertexTable
      (m.faceKeys.foldl (quadFaceStep m)
        (m.edges.foldl (ccSplitStep m.verticesOnBoundary)
          (m, m.verticesOnBoundary.map (fun b => (b, ([] : List Nat))),
            ([] : List Nat))).1)
      (m.edges.foldl (ccSplitStep m.verticesOnBoundary)
        (m, m.verticesOnBoundary.map (fun b => (b, ([] : List Nat))),
          ([] : List Nat))).2.2
    obtain ⟨w1, w2⟩ := ccVertexPointFold_counts m fixed m.verticesOnBoundary
      (m.edges.foldl (ccSplitStep m.verticesOnBoundary)
        (m, m.verticesOnBoundary.map (fun b => (b, ([] : List Nat))),
          ([] : List Nat))).2.1
      (m.faceKeys.foldl (quadFaceStep m)
        (m.edges.foldl (ccSplitStep m.verticesOnBoundary)
          (m, m.verticesOnBoundary.map (fun b => (b, ([] : List Nat))),
            ([] : List Nat))).1).vertexTable
      (ccEdgePointFold
        (m.faceKeys.foldl (quadFaceStep m)
          (m.edges.foldl (ccSplitStep m.verticesOnBoundary)
            (m, m.verticesOnBoundary.map (fun b => (b, ([] : List Nat))),
              ([] : List Nat))).1).vertexTable
        (m.faceKeys.foldl (quadFaceStep m)
          (m.edges.foldl (ccSplitStep m.verticesOnBoundary)
            (m, m.verticesOnBoundary.map (fun b => (b, ([] : List Nat))),
              ([] : List Nat))).1)
        (m.edges.foldl (ccSplitStep m.verticesOnBoundary)
          (m, m.verticesOnBoundary.map (fun b => (b, ([] : List Nat))),
            ([] : List Nat))).2.2)
    constructor
    · rw [hcc, w1, e1, q1c, c1, hFlen]
    · have hslen : (m.edges.foldl (ccSplitStep m.verticesOnBoundary)
          (m, m.verticesOnBoundary.map (fun b => (b, ([] : List Nat))),
            ([] : List Nat))).1.faceTable.length = m.faceCount := by
        have := congrArg List.length c2
        rwa [List.length_map, List.length_map] at this
      rw [hdeg] at q2c
      unfold Mesh.faceCount at hslen ⊢
      rw [hcc, w2, e2]
      omega

/-- Witness for C4 on the single planar unit quad: 4 vertices, 4 edges, one
face of degree 4 become 9 vertices and 4 quads, for both schemes. -/
theorem C4_quad_catmullclark_counts_witness :
    unitQuad.WF ∧
      (mesh_subdivide_quad unitQuad 1).vertexCount =
        unitQuad.vertexCount + unitQuad.edges.length + unitQuad.faceCount ∧
      (mesh_subdivide_catmullclark unitQuad 1 []).faceCount =
        (unitQuad.faceTable.map (fun e => e.2.length)).sum :=
  ⟨by decide,
   (C4_quad_catmullclark_counts unitQuad [] (by decide)).1.1,
   (C4_quad_catmullclark_counts unitQuad [] (by decide)).2.2⟩

end Compas
